import Mathlib

/-!
# Verification development for `arriqaaq/scraper`

A shallow embedding of the scrape scheduler (`scraper.go`, `loop.go`, `pool.go`,
`exporter.go`) together with theorems about it.

Conventions of the embedding

* `time.Duration` and `time.Time` are `Int` nanoseconds; `int64` arithmetic that can
  overflow is wrapped explicitly with `wrapInt64`, `uint64` values are `Nat` reduced
  modulo `2 ^ 64`.
* `*url.URL` is represented by the string that `URL.String()` returns.
* A Go `error` is `Option GoError`, `none` being `nil`.
* Code that panics returns `none` (`Option`).
* State is passed explicitly; calls through an interface are recorded in a call log
  so that "is called exactly once" can be stated.
-/

namespace Scraper

/-! ## Basic types -/

/-- Nanoseconds, as `time.Duration` (an `int64`). -/
abbrev Duration := Int

/-- Nanoseconds since the epoch, as `time.Time.UnixNano()`. -/
abbrev Time := Int

/-- The string form of a `*url.URL`. -/
abbrev URL := String

/-- Reduction of an integer to the `int64` range (two's complement wrap-around). -/
def wrapInt64 (x : Int) : Int := (x + 2 ^ 63) % 2 ^ 64 - 2 ^ 63

/-- Conversion `uint64(x)` of an `int64` value. -/
def toUint64 (x : Int) : Nat := (x % 2 ^ 64).toNat

/-- Embedding of `time.Second` in nanoseconds. -/
def second : Duration := 1000000000

/-- Embedding of `time.Millisecond` in nanoseconds. -/
def millisecond : Duration := 1000000

/-- The type `TargetHealth` is a `float64` in the source; only the three constants below are
ever produced, all of them integers. -/
abbrev TargetHealth := Int

def HealthUnknown : TargetHealth := -1
def HealthGood : TargetHealth := 1
def HealthBad : TargetHealth := 0

/-- Go error values that occur in the package. -/
inductive GoError
  /-- the error `context.Canceled` -/
  | canceled
  /-- the error `context.DeadlineExceeded` -/
  | deadlineExceeded
  /-- an error built by `errors.Errorf` with the given message -/
  | errorf (msg : String)
  /-- an error produced by the transport collaborator -/
  | transport (msg : String)
  deriving DecidableEq, Repr

/-- The method `Error()` of an error value. -/
def GoError.Error : GoError → String
  | .canceled => "context canceled"
  | .deadlineExceeded => "context deadline exceeded"
  | .errorf msg => msg
  | .transport msg => msg

/-! ## Target (`scraper.go`) -/

/-- The struct `Target`. -/
structure Target where
  lastError : Option GoError
  lastScrape : Time
  lastScrapeDuration : Duration
  health : TargetHealth
  url : URL
  deriving DecidableEq, Repr

/-- Embedding of `NewTarget`. The zero `time.Time` and zero duration are written `0`. -/
def NewTarget (url : URL) : Target :=
  { lastError := none, lastScrape := 0, lastScrapeDuration := 0,
    health := HealthUnknown, url := url }

/-- Embedding of `Target.URL`. -/
def Target.URL (t : Target) : URL := t.url

/-- FNV-1a offset basis, 64 bit. -/
def fnvOffset64 : Nat := 14695981039346656037

/-- FNV-1a prime, 64 bit. -/
def fnvPrime64 : Nat := 1099511628211

/-- One step of `fnv.New64a().Write`: xor the byte in, multiply by the prime. -/
def fnv64aStep (h : Nat) (b : UInt8) : Nat :=
  (Nat.xor h b.toNat * fnvPrime64) % 2 ^ 64

/-- Embedding of `fnv.New64a()` followed by `Write(bytes)` and `Sum64()`. -/
def fnv64a (bytes : List UInt8) : Nat :=
  bytes.foldl fnv64aStep fnvOffset64

/-- Embedding of `Target.hash`: FNV-1a over the bytes of the URL string. -/
def Target.hash (t : Target) : Nat :=
  fnv64a t.URL.toUTF8.data.toList

/-- Embedding of `Target.offset`, with the reading `now` of `time.Now().UnixNano()` made an
argument. `none` is the integer-division panic for a zero interval. -/
def Target.offset (t : Target) (interval : Duration) (jitterSeed : Nat) (now : Int) :
    Option Duration :=
  if interval = 0 then none
  else
    let base := wrapInt64 (interval - now.tmod interval)
    let offset := Nat.xor t.hash (jitterSeed % 2 ^ 64) % toUint64 interval
    let next := wrapInt64 (base + wrapInt64 (offset : Int))
    if next > interval then some (wrapInt64 (next - interval)) else some next

/-- Embedding of `Target.report`. -/
def Target.report (t : Target) (start : Time) (dur : Duration) (err : Option GoError) :
    Target :=
  { t with
    health := if err = none then HealthGood else HealthBad
    lastError := err
    lastScrape := start
    lastScrapeDuration := dur }

/-! ## Storage (`scraper.go`) -/

/-- The struct `TargetResponse`. -/
structure TargetResponse where
  URL : URL
  Status : TargetHealth
  ResponseTime : Duration
  deriving DecidableEq, Repr

/-- The struct `Storage`; the mutex is left out, the slice `rws` is a list in append
order (the capacity of a Go slice is not observable through `append`). -/
structure Storage where
  rws : List TargetResponse
  chSize : Int
  deriving DecidableEq, Repr

/-- Embedding of `NewStorage`. `make([]TargetResponse, 0, chSize)` panics for a negative capacity. -/
def NewStorage (chSize : Int) : Option Storage :=
  if chSize < 0 then none else some { rws := [], chSize := chSize }

/-- Embedding of `Storage.Add`: the new state and the returned error. -/
def Storage.Add (t : Storage) (url : URL) (health : TargetHealth) (duration : Duration) :
    Storage × Option GoError :=
  let report : TargetResponse := { URL := url, Status := health, ResponseTime := duration }
  ({ t with rws := t.rws ++ [report] }, none)

/-- Embedding of `Storage.Commit`: the returned slice and the new state. The `make` of the fresh
buffer panics for a negative `chSize`. -/
def Storage.Commit (t : Storage) : Option (List TargetResponse × Storage) :=
  if t.chSize < 0 then none else some (t.rws, { t with rws := [] })

/-- A sequence of `Add` calls, one per element, in order; the errors returned are
collected. -/
def Storage.addAll (t : Storage) : List TargetResponse → Storage × List (Option GoError)
  | [] => (t, [])
  | r :: rs =>
    let (t1, e) := t.Add r.URL r.Status r.ResponseTime
    let (t2, es) := Storage.addAll t1 rs
    (t2, e :: es)

/-! ## Contexts and channels -/

/-- What this package observes of a `context.Context`: `err` is the value of
`ctx.Err()`, non-nil exactly when `ctx.Done()` is closed; `timeout` is the timeout
attached by `context.WithTimeout`, if any. -/
structure Context where
  err : Option GoError
  timeout : Option Duration
  deriving DecidableEq, Repr

/-- Embedding of `context.Background()`. -/
def Context.Background : Context := { err := none, timeout := none }

/-- The child context of `context.WithCancel(parent)`. -/
def Context.WithCancel (parent : Context) : Context := parent

/-- Calling the cancel function of a context: the first cancellation wins. -/
def Context.cancel (c : Context) : Context :=
  if c.err = none then { c with err := some GoError.canceled } else c

/-- The child context of `context.WithTimeout(parent, timeout)`: it is done with
the parent's error when the parent is done, and expired at once for a timeout that is
not positive. -/
def Context.WithTimeout (parent : Context) (timeout : Duration) : Context :=
  { err := if parent.err = none then
             (if timeout ≤ 0 then some GoError.deadlineExceeded else none)
           else parent.err
    timeout := some timeout }

/-- The sending end `chan<- error` as the loop sees it: the values handed over so
far and whether a send can complete now (a receiver is waiting or the buffer has
room). -/
structure ErrChan where
  sent : List GoError
  ready : Bool
  deriving DecidableEq, Repr

/-! ## The scraper interface and the scrape loop (`loop.go`) -/

/-- The interface `scraper` for an implementation whose receiver has state `σ`.
`offset` gets the clock reading it may consult; `none` from `offset` is a panic. -/
structure scraper (σ : Type) where
  scrape : σ → Context → σ × Option GoError
  report : σ → Time → Duration → Option GoError → σ
  offset : σ → Duration → Nat → Time → Option Duration
  url : σ → URL

/-- A call made by the loop through the `scraper` or `Store` interface. -/
inductive Call
  | scrape (ctx : Context)
  | report (start : Time) (dur : Duration) (err : Option GoError)
  | offset (interval : Duration) (jitterSeed : Nat)
  | url
  | add (url : URL) (health : TargetHealth) (duration : Duration)
  deriving DecidableEq, Repr

/-- The struct `scrapeLoop`. `sc` is the receiver of the `scraper` interface value,
`store` the `Store` that `sl.store(sl.ctx)` returns, `stopped` tells whether the
channel `stopped` is closed, `calls` is the log of interface calls made so far. -/
structure scrapeLoop (σ : Type) where
  scraper : scraper σ
  sc : σ
  jitterSeed : Nat
  store : Storage
  ctx : Context
  stopped : Bool
  calls : List Call

/-- Embedding of `newScrapeLoop`. -/
def newScrapeLoop {σ : Type} (ctx : Context) (impl : scraper σ) (sc : σ)
    (store : Storage) (jitterSeed : Nat) : scrapeLoop σ :=
  { scraper := impl, sc := sc, jitterSeed := jitterSeed, store := store,
    ctx := Context.WithCancel ctx, stopped := false, calls := [] }

/-- The three clock readings of one `scrapeAndReport`: `start` is `time.Now()` on
entry, `atAdd` the reading of `time.Since(start)` in the arguments of `Add`,
`atReport` the reading of `time.Since(start)` in the deferred `report`. -/
structure Readings where
  start : Time
  atAdd : Time
  atReport : Time
  deriving DecidableEq, Repr

/-- Result of `scrapeAndReport`: the loop and channel afterwards, and the returned
start time; `ret = none` means the call is blocked in `errc <- scrapeErr` and has
neither appended to the store nor run the deferred `report`. -/
structure ScrapeResult (σ : Type) where
  sl : scrapeLoop σ
  errc : Option ErrChan
  ret : Option Time

/-- Embedding of `scrapeLoop.scrapeAndReport`. -/
def scrapeLoop.scrapeAndReport {σ : Type} (sl : scrapeLoop σ) (_interval timeout : Duration)
    (_appendTime : Time) (errc : Option ErrChan) (clk : Readings) : ScrapeResult σ :=
  let start := clk.start
  let app := sl.store
  let scrapeCtx := Context.WithTimeout sl.ctx timeout
  let scraped := sl.scraper.scrape sl.sc scrapeCtx
  let sc1 := scraped.1
  let scrapeErr := scraped.2
  let calls1 := sl.calls ++ [Call.scrape scrapeCtx]
  -- the tail of the function: `Add`, then the deferred `report`
  let finish (health : TargetHealth) (errc1 : Option ErrChan) : ScrapeResult σ :=
    let u := sl.scraper.url sc1
    let app1 := (app.Add u health (clk.atAdd - start)).1
    let sc2 := sl.scraper.report sc1 start (clk.atReport - start) scrapeErr
    { sl := { sl with
              sc := sc2
              store := app1
              calls := calls1 ++ [Call.url, Call.add u health (clk.atAdd - start),
                Call.report start (clk.atReport - start) scrapeErr] }
      errc := errc1
      ret := some start }
  match scrapeErr with
  | some e =>
    match errc with
    | some ch =>
      if ch.ready then finish HealthBad (some { ch with sent := ch.sent ++ [e] })
      else { sl := { sl with sc := sc1, calls := calls1 }, errc := errc, ret := none }
    | none => finish HealthBad none
  | none => finish HealthGood errc

/-- Embedding of `scrapeLoop.stop`: cancels the loop's context; the call returns once `stopped`
is closed, which the second component reports. -/
def scrapeLoop.stop {σ : Type} (sl : scrapeLoop σ) : scrapeLoop σ × Bool :=
  let sl1 := { sl with ctx := sl.ctx.cancel }
  (sl1, sl1.stopped)

/-- Which case of a blocking `select` of `run` is taken: `done` is
`<-sl.ctx.Done()`, which needs the loop's context to have been cancelled; `timer` is
the timer or ticker case. -/
inductive Wake
  | done
  | timer
  deriving DecidableEq, Repr

/-- What one iteration of the `for` loop of `run` gets from outside: whether the
loop's context has been cancelled by another goroutine before the iteration begins
(`cancelled`) or after the check at the top of the iteration, while the scrape is
under way (`cancelledInFlight`), the clock readings, and the case taken by the
`select` that ends the iteration. -/
structure Tick where
  cancelled : Bool
  cancelledInFlight : Bool
  scrapeTime : Time
  clk : Readings
  wake : Wake
  deriving DecidableEq, Repr

/-- How far a call of `run` has come on a given schedule. -/
inductive RunStatus
  /-- the call of `run` has returned -/
  | returned
  /-- the call of `run` waits in a `select`, or the schedule given ends here -/
  | waiting
  /-- the call of `run` is blocked in `errc <- scrapeErr` -/
  | blockedOnSend
  /-- the call of `run` has panicked -/
  | panicked
  deriving DecidableEq, Repr

/-- State of a call of `run`. -/
structure RunResult (σ : Type) where
  sl : scrapeLoop σ
  errc : Option ErrChan
  status : RunStatus

/-- The statements `close(sl.stopped)` and `return` of `run`; the `close` of a channel
that is closed already panics. -/
def scrapeLoop.closeStopped {σ : Type} (sl : scrapeLoop σ) (errc : Option ErrChan) :
    RunResult σ :=
  if sl.stopped then { sl := sl, errc := errc, status := RunStatus.panicked }
  else { sl := { sl with stopped := true }, errc := errc, status := RunStatus.returned }

/-- The `for` loop of `scrapeLoop.run`, one `Tick` per iteration. -/
def scrapeLoop.runLoop {σ : Type} (interval timeout : Duration) :
    scrapeLoop σ → Option ErrChan → List Tick → RunResult σ
  | sl, errc, [] => { sl := sl, errc := errc, status := RunStatus.waiting }
  | sl, errc, tk :: rest =>
    let sl0 := if tk.cancelled then { sl with ctx := sl.ctx.cancel } else sl
    if sl0.ctx.err ≠ none then sl0.closeStopped errc
    else
      let sl1 := if tk.cancelledInFlight then { sl0 with ctx := sl0.ctx.cancel } else sl0
      let r := sl1.scrapeAndReport interval timeout tk.scrapeTime errc tk.clk
      match r.ret with
      | none => { sl := r.sl, errc := r.errc, status := RunStatus.blockedOnSend }
      | some _ =>
        match tk.wake with
        | Wake.done => scrapeLoop.closeStopped { r.sl with ctx := r.sl.ctx.cancel } r.errc
        | Wake.timer => scrapeLoop.runLoop interval timeout r.sl r.errc rest

/-- Embedding of `scrapeLoop.run`. `now` is the clock reading that `offset` may
consult, `first` the case taken by the `select` that waits out the offset (`none`:
still waiting), `ticks` the iterations that follow. `time.NewTicker` panics for an
interval that is not positive. -/
def scrapeLoop.run {σ : Type} (sl : scrapeLoop σ) (interval timeout : Duration)
    (errc : Option ErrChan) (now : Time) (first : Option Wake) (ticks : List Tick) :
    RunResult σ :=
  match sl.scraper.offset sl.sc interval sl.jitterSeed now with
  | none => { sl := sl, errc := errc, status := RunStatus.panicked }
  | some _ =>
    let sl1 := { sl with calls := sl.calls ++ [Call.offset interval sl.jitterSeed] }
    match first with
    | none => { sl := sl1, errc := errc, status := RunStatus.waiting }
    | some Wake.done => scrapeLoop.closeStopped { sl1 with ctx := sl1.ctx.cancel } errc
    | some Wake.timer =>
      if interval ≤ 0 then { sl := sl1, errc := errc, status := RunStatus.panicked }
      else scrapeLoop.runLoop interval timeout sl1 errc ticks

/-! ## The target scraper (`scraper.go`) -/

/-- The request built by `http.NewRequest("GET", url, nil)` with the header
`X-Scrape-Timeout-Seconds`; the header is kept as the duration it is formatted
from. -/
structure Request where
  method : String
  url : URL
  scrapeTimeout : Duration
  deriving DecidableEq, Repr

/-- The fields of `http.Response` that `scrape` reads: `Status` is the status text,
such as "200 OK", `StatusCode` the number. -/
structure Response where
  Status : String
  StatusCode : Int
  deriving DecidableEq, Repr

/-- Embedding of `http.StatusOK`. -/
def StatusOK : Int := 200

/-- The transport collaborator (`boomerang.HttpClient` over `net/http`), which is
not part of the package: `newRequestErr` is the error of `http.NewRequest` for a URL
string (nil for a well-formed one), `Do n` the outcome of the `n`-th call of
`client.Do` for a request and its context, `calls` the number of calls made. -/
structure HttpClient where
  newRequestErr : URL → Option GoError
  Do : Nat → Request → Context → Except GoError Response
  calls : Nat

/-- The struct `targetScraper`; `target` is the embedded `*Target`. -/
structure targetScraper where
  target : Target
  client : HttpClient
  req : Option Request
  timeout : Duration

/-- Embedding of `targetScraper.url`. -/
def targetScraper.url (s : targetScraper) : URL := s.target.URL

/-- Embedding of `targetScraper.scrape`. Draining and closing the body has no effect on the
state modelled here. -/
def targetScraper.scrape (s : targetScraper) (ctx : Context) :
    targetScraper × Option GoError :=
  let build : Except GoError (targetScraper × Request) :=
    match s.req with
    | none =>
      match s.client.newRequestErr s.target.URL with
      | some err => Except.error err
      | none =>
        let req : Request :=
          { method := "GET", url := s.target.URL, scrapeTimeout := s.timeout }
        Except.ok ({ s with req := some req }, req)
    | some req => Except.ok (s, req)
  match build with
  | Except.error err => (s, some err)
  | Except.ok (s1, req) =>
    let s2 := { s1 with client := { s1.client with calls := s1.client.calls + 1 } }
    match s1.client.Do s1.client.calls req ctx with
    | Except.error err => (s2, some err)
    | Except.ok resp =>
      if resp.StatusCode ≠ StatusOK then
        (s2, some (GoError.errorf ("server returned HTTP status " ++ resp.Status)))
      else (s2, none)

/-- The methods `report` and `offset` of a `targetScraper` are those of the embedded
`Target`. -/
def targetScraper.report (s : targetScraper) (start : Time) (dur : Duration)
    (err : Option GoError) : targetScraper :=
  { s with target := s.target.report start dur err }

def targetScraper.offset (s : targetScraper) (interval : Duration) (jitterSeed : Nat)
    (now : Time) : Option Duration :=
  s.target.offset interval jitterSeed now

/-- The `scraper` interface value of a `*targetScraper`. -/
def targetScraperImpl : scraper targetScraper :=
  { scrape := targetScraper.scrape
    report := targetScraper.report
    offset := targetScraper.offset
    url := targetScraper.url }

/-- The struct `testScraper` of `loop_test.go`; `scrapeFunc`, when set, decides the
result of `scrape` from the context. -/
structure testScraper where
  offsetDur : Duration
  lastStart : Time
  lastDuration : Duration
  lastError : Option GoError
  scrapeErr : Option GoError
  scrapeFunc : Option (Context → Option GoError)

/-- The `scraper` interface value of a `*testScraper`. -/
def testScraperImpl : scraper testScraper :=
  { scrape := fun ts ctx =>
      match ts.scrapeFunc with
      | some f => (ts, f ctx)
      | none => (ts, ts.scrapeErr)
    report := fun ts start duration err =>
      { ts with lastStart := start, lastDuration := duration, lastError := err }
    offset := fun ts _ _ _ => some ts.offsetDur
    url := fun _ => "http://foobar.com" }

/-! ## Maps -/

/-- Assignment `m[k] = v` in a Go map kept as an association list with distinct
keys: an existing key keeps its place, a new key is added at the end. The order of
the list stands for one of the orders in which `range` may visit the map. -/
def mapSet {κ α : Type} [DecidableEq κ] : List (κ × α) → κ → α → List (κ × α)
  | [], k, v => [(k, v)]
  | (k1, v1) :: m, k, v => if k1 = k then (k, v) :: m else (k1, v1) :: mapSet m k v

/-- Lookup `m[k]` in such a map. -/
def mapGet {κ α : Type} [DecidableEq κ] : List (κ × α) → κ → Option α
  | [], _ => none
  | (k1, v1) :: m, k => if k1 = k then some v1 else mapGet m k

/-! ## The exporter (`exporter.go`) -/

/-- The number of binary digits to drop from `n` so that 53 remain, found by
halving `n` until it is below `2 ^ 53`; `fuel` bounds the number of halvings. -/
def float64Shift : Nat → Nat → Nat
  | 0, _ => 0
  | fuel + 1, n => if n < 2 ^ 53 then 0 else float64Shift fuel (n / 2) + 1

/-- The natural number nearest to `n` that a `float64` represents, with ties going to
the even significand (the rounding of IEEE 754 arithmetic, which Go uses), for `n`
in the finite range of `float64`, that is below `2 ^ 1024`. -/
def roundFloat64Nat (n : Nat) : Nat :=
  let e := float64Shift 1024 n
  let q := n / 2 ^ e
  let r := n % 2 ^ e
  let q1 := if 2 ^ (e - 1) < r ∨ (r = 2 ^ (e - 1) ∧ q % 2 = 1) then q + 1 else q
  q1 * 2 ^ e

/-- The conversion `float64(x)` of an integer: the nearest integer that a `float64`
represents. -/
def roundFloat64 (x : Int) : Int :=
  if x < 0 then -(roundFloat64Nat x.natAbs : Int) else (roundFloat64Nat x.natAbs : Int)

/-- The sum `a + b` of two `float64` values that are whole numbers: the exact sum,
rounded to a `float64`. -/
def float64Add (a b : Int) : Int := roundFloat64 (a + b)

/-- What a Prometheus histogram child exposes that the package's tests read: the sum
and the number of the observed samples. The sum is a `float64`; the samples observed
here are whole numbers, so the sum is the whole number that the `float64` holds. -/
structure Histogram where
  sampleSum : Int
  sampleCount : Nat
  deriving DecidableEq, Repr

/-- Embedding of `prometheus.GaugeVec` with the one label `url`: the children by label value. -/
abbrev GaugeVec := List (String × Int)

/-- Embedding of `prometheus.HistogramVec` with the one label `url`: the children by label
value. -/
abbrev HistogramVec := List (String × Histogram)

/-- Embedding of `WithLabelValues(label).Set(v)` on a gauge vector. -/
def GaugeVec.set (g : GaugeVec) (label : String) (v : Int) : GaugeVec :=
  mapSet g label v

/-- Embedding of `WithLabelValues(label).Observe(v)` on a histogram vector, for a
`float64` value `v` that is a whole number; the child is created empty when the label
is new. The sample is added to the sum in `float64` arithmetic. -/
def HistogramVec.observe (h : HistogramVec) (label : String) (v : Int) : HistogramVec :=
  let old := (mapGet h label).getD { sampleSum := 0, sampleCount := 0 }
  mapSet h label
    { sampleSum := float64Add old.sampleSum v, sampleCount := old.sampleCount + 1 }

/-- The struct `Metrics`. -/
structure Metrics where
  TargetURLStatus : GaugeVec
  TargetURLResponseTime : HistogramVec
  deriving DecidableEq, Repr

/-- Embedding of `NewMetrics`: both vectors without children. -/
def NewMetrics : Metrics := { TargetURLStatus := [], TargetURLResponseTime := [] }

/-- The struct `Exporter`. -/
structure Exporter where
  metrics : Metrics
  entries : List TargetResponse
  deriving DecidableEq, Repr

/-- Embedding of `NewExporter`; `make` panics for a negative capacity. -/
def NewExporter (options : Metrics) (chSize : Int) : Option Exporter :=
  if chSize < 0 then none else some { metrics := options, entries := [] }

/-- Embedding of `time.Duration.Milliseconds`: integer division truncating toward zero. -/
def Milliseconds (d : Duration) : Int := Int.tdiv d 1000000

/-- The body of the `for` loop of `Collect` for one entry. -/
def Metrics.observeEntry (m : Metrics) (res : TargetResponse) : Metrics :=
  { TargetURLStatus := m.TargetURLStatus.set res.URL res.Status
    TargetURLResponseTime :=
      m.TargetURLResponseTime.observe res.URL
        (roundFloat64 (Milliseconds res.ResponseTime)) }

/-- A metric sent on the channel of `Collect`. -/
inductive Metric
  | gauge (url : String) (value : Int)
  | histogram (url : String) (h : Histogram)
  deriving DecidableEq, Repr

/-- Embedding of `Exporter.Collect`: the exporter afterwards and the metrics sent on `ch`, the
gauges first, then the histograms. -/
def Exporter.Collect (e : Exporter) : Exporter × List Metric :=
  let m := e.entries.foldl Metrics.observeEntry e.metrics
  ({ e with metrics := m },
    m.TargetURLStatus.map (fun p => Metric.gauge p.1 p.2)
      ++ m.TargetURLResponseTime.map (fun p => Metric.histogram p.1 p.2))

/-! ## The scrape pool (`pool.go`) -/

/-- The struct `ScrapeConfig`. -/
structure ScrapeConfig where
  ScrapeInterval : Duration
  ScrapeTimeout : Duration
  StoreSize : Int
  JitterSeed : Nat
  deriving DecidableEq, Repr

/-- The struct `scrapeLoopOptions`; the `scraper` built by `Start` is always a
`*targetScraper`. -/
structure scrapeLoopOptions where
  target : Target
  scraper : targetScraper

/-- A value of the interface type `loop`: `none` is the nil interface, `some l` the
loop object with reference `l`. -/
abbrev LoopRef := Option Nat

/-- What the pool does with loops, in the order in which it does it. -/
inductive PoolEvent
  /-- a call `sp.newLoop(opts)` for the target with this URL and hash returned `l` -/
  | newLoop (url : URL) (hash : Nat) (l : LoopRef)
  /-- the statement `go l.run(interval, timeout, errc)` -/
  | run (l : Nat) (interval timeout : Duration) (errc : Option ErrChan)
  /-- the call `l.stop()` in a goroutine of `Stop` -/
  | stop (l : Nat)
  deriving DecidableEq, Repr

/-- The struct `ScrapePool`. `loops` is the map from hash to loop, `objects` the loop
objects built so far (a reference is an index into it; the `store` field of an
object stands for the pool's shared store), `quitClosed` tells whether `quitCh` is
closed, `drains` counts the running drain goroutines, `events` is the log.
`newLoop` gets the parts of the pool that the constructor closes over. -/
structure ScrapePool where
  ctx : Context
  client : HttpClient
  loops : List (Nat × LoopRef)
  config : ScrapeConfig
  store : Storage
  exporter : Exporter
  quitClosed : Bool
  newLoop : Context → Storage → ScrapeConfig → scrapeLoopOptions →
    Option (scrapeLoop targetScraper)
  objects : List (scrapeLoop targetScraper)
  drains : Nat
  events : List PoolEvent

/-- The constructor that `NewScrapePool` wires into `newLoop`. -/
def defaultNewLoop (ctx : Context) (store : Storage) (config : ScrapeConfig)
    (opts : scrapeLoopOptions) : Option (scrapeLoop targetScraper) :=
  some (newScrapeLoop ctx targetScraperImpl opts.scraper store config.JitterSeed)

/-- Embedding of `NewScrapePool`, for a given transport `client`: the pool and the returned
error. `none` is the panic of `make` in `NewStorage` or `NewExporter` for a negative
`StoreSize`. -/
def NewScrapePool (client : HttpClient) (cfg : ScrapeConfig) :
    Option (ScrapePool × Option GoError) :=
  match NewStorage cfg.StoreSize, NewExporter NewMetrics cfg.StoreSize with
  | some store, some exporter =>
    some ({ ctx := Context.WithCancel Context.Background
            client := client
            loops := []
            config := cfg
            store := store
            exporter := exporter
            quitClosed := false
            newLoop := defaultNewLoop
            objects := []
            drains := 0
            events := [] }, none)
  | _, _ => none

/-- The body of the first `for` loop of `Start` for one target. -/
def ScrapePool.register (sp : ScrapePool) (timeout : Duration) (t : Target) : ScrapePool :=
  let hash := t.hash
  let ts : targetScraper := { target := t, client := sp.client, req := none, timeout := timeout }
  match sp.newLoop sp.ctx sp.store sp.config { target := t, scraper := ts } with
  | none =>
    { sp with
      loops := mapSet sp.loops hash none
      events := sp.events ++ [PoolEvent.newLoop t.URL hash none] }
  | some obj =>
    let l := sp.objects.length
    { sp with
      objects := sp.objects ++ [obj]
      loops := mapSet sp.loops hash (some l)
      events := sp.events ++ [PoolEvent.newLoop t.URL hash (some l)] }

/-- The `go l.run(interval, timeout, nil)` statements of the second `for` loop of
`Start`, one for each entry of the map that is not nil. -/
def runEvents (loops : List (Nat × LoopRef)) (interval timeout : Duration) :
    List PoolEvent :=
  loops.filterMap (fun p => p.2.map (fun l => PoolEvent.run l interval timeout none))

/-- Embedding of `ScrapePool.Start`. `none` is the panic of `time.NewTicker` for an interval that
is not positive. -/
def ScrapePool.Start (sp : ScrapePool) (targets : List Target) : Option ScrapePool :=
  let interval := sp.config.ScrapeInterval
  let timeout := sp.config.ScrapeTimeout
  let sp1 := targets.foldl (fun p t => p.register timeout t) sp
  let sp2 := { sp1 with events := sp1.events ++ runEvents sp1.loops interval timeout }
  if interval ≤ 0 then none else some { sp2 with drains := sp2.drains + 1 }

/-- One tick of a drain goroutine started by `Start`. -/
def ScrapePool.drainTick (sp : ScrapePool) : Option ScrapePool :=
  match sp.store.Commit with
  | none => none
  | some (entries, store) =>
    some { sp with store := store, exporter := { sp.exporter with entries := entries } }

/-- The effect of `l.stop()` on the loop object with reference `l`. -/
def stopObject (objects : List (scrapeLoop targetScraper)) (l : Nat) :
    List (scrapeLoop targetScraper) :=
  objects.modify (fun o => (scrapeLoop.stop o).1) l

/-- Embedding of `ScrapePool.Stop`: the pool as it is when `Stop` returns, that is once every
`l.stop()` has returned. `none` is a panic: `close` of a `quitCh` that is already
closed, or the call of `stop` on a nil loop. -/
def ScrapePool.Stop (sp : ScrapePool) : Option ScrapePool :=
  if sp.quitClosed then none
  else if sp.loops.any (fun p => p.2.isNone) then none
  else
    let ls := sp.loops.filterMap (fun p => p.2)
    some { sp with
      ctx := sp.ctx.cancel
      quitClosed := true
      drains := 0
      objects := ls.foldl stopObject sp.objects
      events := sp.events ++ ls.map PoolEvent.stop
      loops := [] }

/-! ## Notions used to state the properties -/

/-- The text `w` occurs in the text `s`. -/
def Contains (s w : String) : Prop := ∃ a b : String, s = a ++ w ++ b

/-- "Success status" in the words of the specification, read as HTTP does: the
class 2xx, that is the codes 200 to 299. It is compared below with the check
`resp.StatusCode != http.StatusOK` of `scrape`. -/
def specSuccessStatus (code : Int) : Bool := decide (200 ≤ code) && decide (code < 300)

/-- A transport that builds every request and answers every call with `r`. -/
def constClient (r : Except GoError Response) : HttpClient :=
  { newRequestErr := fun _ => none, Do := fun _ _ _ => r, calls := 0 }

/-- A transport that honours the context: it returns the context's error when the
context is done and answers `200 OK` otherwise. -/
def ctxClient : HttpClient :=
  { newRequestErr := fun _ => none
    Do := fun _ _ ctx =>
      match ctx.err with
      | some e => Except.error e
      | none => Except.ok { Status := "200 OK", StatusCode := 200 }
    calls := 0 }

/-- The request that `scrape` sends: the cached one, or the one it builds. -/
def targetScraper.request (s : targetScraper) : Request :=
  s.req.getD { method := "GET", url := s.target.URL, scrapeTimeout := s.timeout }

/-- The loop that the constructor wired by `NewScrapePool` builds in `Start` for the
target `t`. -/
def ScrapePool.builtLoop (sp : ScrapePool) (t : Target) : scrapeLoop targetScraper :=
  newScrapeLoop sp.ctx targetScraperImpl
    { target := t, client := sp.client, req := none, timeout := sp.config.ScrapeTimeout }
    sp.store sp.config.JitterSeed

/-- The loop references registered in a loop map. -/
def registered (loops : List (Nat × LoopRef)) : List Nat :=
  loops.filterMap (fun p => p.2)

/-- The entries of a list that carry the URL string `u`, in order. -/
def entriesFor (es : List TargetResponse) (u : String) : List TargetResponse :=
  es.filter (fun r => decide (r.URL = u))

/-- The health of the last entry for `u`, if there is an entry for `u`. -/
def lastHealth (es : List TargetResponse) (u : String) : Option TargetHealth :=
  (entriesFor es u).getLast?.map (fun r => r.Status)

/-- The sum of the response times, in whole milliseconds, of the entries for `u`. -/
def sumMilliseconds (es : List TargetResponse) (u : String) : Int :=
  ((entriesFor es u).map (fun r => Milliseconds r.ResponseTime)).sum

/-- The response times, in whole milliseconds, of the entries for `u`, in order. -/
def millisecondsFor (es : List TargetResponse) (u : String) : List Int :=
  (entriesFor es u).map (fun r => Milliseconds r.ResponseTime)

/-- The sum of the absolute values of the response times, in whole milliseconds, of
the entries for `u`. -/
def absMilliseconds (es : List TargetResponse) (u : String) : Nat :=
  ((millisecondsFor es u).map Int.natAbs).sum

/-- The sum that a histogram holds after observing the whole numbers `vs` one after
the other, starting from the sum `s`: each is converted to `float64` and added in
`float64` arithmetic. -/
def float64Sum (s : Int) (vs : List Int) : Int :=
  vs.foldl (fun a v => roundFloat64 (a + roundFloat64 v)) s

/-- The number of entries for `u`. -/
def countFor (es : List TargetResponse) (u : String) : Nat :=
  (entriesFor es u).length

/-- What holds of the loop map of a pool that builds its loops with the constructor
wired by `NewScrapePool`: no hash occurs twice, no loop is registered twice, no entry
is nil, every registered loop has been built. -/
structure PoolInv (sp : ScrapePool) : Prop where
  ctor : sp.newLoop = defaultNewLoop
  keys : (sp.loops.map Prod.fst).Nodup
  refs : (sp.loops.map Prod.snd).Nodup
  built : ∀ p ∈ sp.loops, ∃ l, p.2 = some l ∧ l < sp.objects.length

/-! ## The hand-off from the store to the exporter -/

/-- A step of the hand-off of results, as the pool's store and exporter see it: an
`Add` on the shared store by a loop, one tick of the drain goroutine started by
`Start`, or one call of `Collect` on the pool's exporter. -/
inductive HandOff
  | add (r : TargetResponse)
  | drain
  | collect
  deriving DecidableEq, Repr

/-- The call `sp.store.Add(url, health, duration)` made by a loop of the pool. -/
def ScrapePool.storeAdd (sp : ScrapePool) (r : TargetResponse) : ScrapePool :=
  { sp with store := (sp.store.Add r.URL r.Status r.ResponseTime).1 }

/-- The method `Collect` of the pool, which is that of the embedded `*Exporter`. -/
def ScrapePool.Collect (sp : ScrapePool) : ScrapePool :=
  { sp with exporter := sp.exporter.Collect.1 }

/-- One step of the hand-off. -/
def ScrapePool.handOff (sp : ScrapePool) : HandOff → Option ScrapePool
  | HandOff.add r => some (sp.storeAdd r)
  | HandOff.drain => sp.drainTick
  | HandOff.collect => some sp.Collect

/-- A sequence of steps of the hand-off, one after the other. -/
def ScrapePool.handOffs : ScrapePool → List HandOff → Option ScrapePool
  | sp, [] => some sp
  | sp, op :: ops => (sp.handOff op).bind (fun sp1 => ScrapePool.handOffs sp1 ops)

/-- The outcomes added by the `Add` steps of a sequence, in order. -/
def addsOf : List HandOff → List TargetResponse
  | [] => []
  | HandOff.add r :: ops => r :: addsOf ops
  | _ :: ops => addsOf ops

/-- What the exporter's histogram for the URL string `u` has observed so far: its
sample sum and sample count, zero when there is no histogram for `u` yet. -/
def ScrapePool.observed (sp : ScrapePool) (u : String) : Histogram :=
  (mapGet sp.exporter.metrics.TargetURLResponseTime u).getD { sampleSum := 0, sampleCount := 0 }

/-- The value that the call `sp.newLoop(opts)` of `Start` returns for the target `t`,
the scraper of `opts` being built with the given timeout. -/
def ScrapePool.construct (sp : ScrapePool) (timeout : Duration) (t : Target) :
    Option (scrapeLoop targetScraper) :=
  sp.newLoop sp.ctx sp.store sp.config
    { target := t
      scraper := { target := t, client := sp.client, req := none, timeout := timeout } }

/-! # Theorems -/

/-! ## Machine integers and hashing -/

theorem wrapInt64_of_range (x : Int) (h1 : -(2 ^ 63) ≤ x) (h2 : x < 2 ^ 63) :
    wrapInt64 x = x := by
  unfold wrapInt64
  omega

theorem toUint64_of_nonneg (x : Int) (h1 : 0 ≤ x) (h2 : x < 2 ^ 63) :
    toUint64 x = x.toNat := by
  unfold toUint64
  congr 1
  omega

theorem fnv64a_lt (bytes : List UInt8) : fnv64a bytes < 2 ^ 64 := by
  unfold fnv64a
  have key : ∀ (bs : List UInt8) (h : Nat), h < 2 ^ 64 → bs.foldl fnv64aStep h < 2 ^ 64 := by
    intro bs
    induction bs with
    | nil => intro h hh; simpa using hh
    | cons b bs ih =>
      intro h _
      simp only [List.foldl_cons]
      apply ih
      unfold fnv64aStep
      exact Nat.mod_lt _ (by norm_num)
  exact key bytes fnvOffset64 (by unfold fnvOffset64; norm_num)

theorem Target.hash_lt (t : Target) : t.hash < 2 ^ 64 := fnv64a_lt _

/-- The identity hash depends on the URL string only. -/
theorem Target.hash_eq_of_url_eq (t u : Target) (h : t.url = u.url) : t.hash = u.hash := by
  unfold Target.hash Target.URL
  rw [h]

theorem hash_foo : (NewTarget "http://foo.com").hash = 1363764536656208770 := by
  decide

/-! ## `Target.offset` -/

/-- The value computed by `offset` when no `int64` operation overflows. -/
theorem Target.offset_eq (t : Target) (interval : Int) (jitterSeed : Nat) (now : Int)
    (hI : 0 < interval) (hI2 : interval ≤ 2 ^ 62) (hnow : 0 ≤ now) :
    t.offset interval jitterSeed now =
      some (if interval - now % interval
                + ((Nat.xor t.hash (jitterSeed % 2 ^ 64) % interval.toNat : Nat) : Int) > interval
            then interval - now % interval
                + ((Nat.xor t.hash (jitterSeed % 2 ^ 64) % interval.toNat : Nat) : Int) - interval
            else interval - now % interval
                + ((Nat.xor t.hash (jitterSeed % 2 ^ 64) % interval.toNat : Nat) : Int)) := by
  have hr0 : 0 ≤ now % interval := Int.emod_nonneg _ (by omega)
  have hr1 : now % interval < interval := Int.emod_lt_of_pos _ hI
  have htm : now.tmod interval = now % interval := Int.tmod_eq_emod hnow (by omega)
  have hu : toUint64 interval = interval.toNat := toUint64_of_nonneg _ (by omega) (by omega)
  have ho : ((Nat.xor t.hash (jitterSeed % 2 ^ 64) % interval.toNat : Nat) : Int) < interval := by
    have : Nat.xor t.hash (jitterSeed % 2 ^ 64) % interval.toNat < interval.toNat :=
      Nat.mod_lt _ (by omega)
    omega
  generalize hoe : Nat.xor t.hash (jitterSeed % 2 ^ 64) % interval.toNat = o at ho
  have hne : ¬ interval = 0 := by omega
  unfold Target.offset
  rw [if_neg hne, htm, hu, hoe]
  simp only []
  rw [wrapInt64_of_range (o : Int) (by omega) (by omega),
    wrapInt64_of_range (interval - now % interval) (by omega) (by omega),
    wrapInt64_of_range (interval - now % interval + o) (by omega) (by omega)]
  split
  · rw [wrapInt64_of_range _ (by omega) (by omega)]
  · rfl

/-- Beyond `2 ^ 62` nanoseconds the sum `base + offset` can leave the `int64` range:
the result is then negative. -/
theorem offset_overflow :
    (NewTarget "http://foo.com").offset (2 ^ 63 - 1) 0 0 = some (-7859607500198567039) := by
  decide

/-! ## Storage -/

theorem Storage.addAll_fst (t : Storage) (rs : List TargetResponse) :
    (t.addAll rs).1 = { t with rws := t.rws ++ rs } := by
  induction rs generalizing t with
  | nil => simp [Storage.addAll]
  | cons r rs ih =>
    simp only [Storage.addAll, Storage.Add]
    rw [ih]
    simp

theorem Storage.addAll_snd (t : Storage) (rs : List TargetResponse) :
    (t.addAll rs).2 = List.replicate rs.length none := by
  induction rs generalizing t with
  | nil => simp [Storage.addAll]
  | cons r rs ih =>
    simp only [Storage.addAll, Storage.Add]
    rw [ih]
    simp [List.replicate_succ]

/-- A store made by `NewStorage` with a non-negative capacity hint is empty and
remembers the hint. -/
theorem NewStorage_eq (n : Int) (hn : 0 ≤ n) :
    NewStorage n = some { rws := [], chSize := n } := by
  unfold NewStorage
  rw [if_neg (by omega)]

/-- C2: in a store with a non-negative capacity hint, used sequentially, a `Commit`
followed by any sequence `rs` of `Add` calls, a second `Commit` and a third `Commit`
behaves as follows: every `Add` returns a nil error, the second `Commit` returns
exactly `rs` (each entry once, in the order added), whatever the length of `rs` is
compared with the capacity hint, and the third `Commit` returns the empty sequence. -/
theorem commit_returns_added_once (t : Storage) (ht : 0 ≤ t.chSize)
    (rs : List TargetResponse) :
    ∃ t1 t2 t3 : Storage,
      t.Commit = some (t.rws, t1) ∧
      (∀ e ∈ (t1.addAll rs).2, e = none) ∧
      (t1.addAll rs).2.length = rs.length ∧
      (t1.addAll rs).1.Commit = some (rs, t2) ∧
      t2.Commit = some ([], t3) := by
  have h0 : ¬ t.chSize < 0 := by omega
  refine ⟨{ t with rws := [] }, { t with rws := [] }, { t with rws := [] }, ?_, ?_, ?_, ?_, ?_⟩
  · simp [Storage.Commit, h0]
  · intro e he
    rw [Storage.addAll_snd] at he
    exact (List.mem_replicate.mp he).2
  · rw [Storage.addAll_snd]; simp
  · rw [Storage.addAll_fst]
    simp [Storage.Commit, h0]
  · simp [Storage.Commit, h0]

/-- Witness for C2: a store made with capacity hint 2 that
takes three entries. -/
theorem commit_returns_added_once_witness :
    NewStorage 2 = some { rws := [], chSize := 2 } ∧
    ∃ t1 t2 t3 : Storage,
      Storage.Commit { rws := [], chSize := 2 } = some ([], t1) ∧
      (∀ e ∈ (t1.addAll [⟨"http://a.com", HealthGood, 1⟩, ⟨"http://b.com", HealthBad, 2⟩,
          ⟨"http://a.com", HealthGood, 3⟩]).2, e = none) ∧
      (t1.addAll [⟨"http://a.com", HealthGood, 1⟩, ⟨"http://b.com", HealthBad, 2⟩,
          ⟨"http://a.com", HealthGood, 3⟩]).2.length = 3 ∧
      (t1.addAll [⟨"http://a.com", HealthGood, 1⟩, ⟨"http://b.com", HealthBad, 2⟩,
          ⟨"http://a.com", HealthGood, 3⟩]).1.Commit
        = some ([⟨"http://a.com", HealthGood, 1⟩, ⟨"http://b.com", HealthBad, 2⟩,
          ⟨"http://a.com", HealthGood, 3⟩], t2) ∧
      t2.Commit = some ([], t3) :=
  ⟨by decide,
    commit_returns_added_once { rws := [], chSize := 2 } (by decide)
      [⟨"http://a.com", HealthGood, 1⟩, ⟨"http://b.com", HealthBad, 2⟩,
        ⟨"http://a.com", HealthGood, 3⟩]⟩

/-! ## `scrapeAndReport` -/

/-- The health that `scrapeAndReport` records for a scrape result. -/
theorem health_of_err_ne_unknown (err : Option GoError) :
    (if err = none then HealthGood else HealthBad) ≠ HealthUnknown := by
  split <;> decide

/-- What `scrapeAndReport` does without an error channel, for any scraper. -/
theorem scrapeAndReport_nil_errc {σ : Type} (sl : scrapeLoop σ)
    (interval timeout : Duration) (appendTime : Time) (clk : Readings) :
    sl.scrapeAndReport interval timeout appendTime none clk =
      { sl := { sl with
                sc := sl.scraper.report
                  (sl.scraper.scrape sl.sc (Context.WithTimeout sl.ctx timeout)).1
                  clk.start (clk.atReport - clk.start)
                  (sl.scraper.scrape sl.sc (Context.WithTimeout sl.ctx timeout)).2
                store :=
                  { sl.store with
                    rws := sl.store.rws ++
                      [{ URL := sl.scraper.url
                          (sl.scraper.scrape sl.sc (Context.WithTimeout sl.ctx timeout)).1
                         Status :=
                          if (sl.scraper.scrape sl.sc (Context.WithTimeout sl.ctx timeout)).2
                              = none then HealthGood else HealthBad
                         ResponseTime := clk.atAdd - clk.start }] }
                calls := sl.calls ++
                  [Call.scrape (Context.WithTimeout sl.ctx timeout), Call.url,
                   Call.add
                    (sl.scraper.url
                      (sl.scraper.scrape sl.sc (Context.WithTimeout sl.ctx timeout)).1)
                    (if (sl.scraper.scrape sl.sc (Context.WithTimeout sl.ctx timeout)).2
                        = none then HealthGood else HealthBad)
                    (clk.atAdd - clk.start),
                   Call.report clk.start (clk.atReport - clk.start)
                    (sl.scraper.scrape sl.sc (Context.WithTimeout sl.ctx timeout)).2] }
        errc := none
        ret := some clk.start } := by
  simp only [scrapeLoop.scrapeAndReport, Storage.Add]
  generalize sl.scraper.scrape sl.sc (Context.WithTimeout sl.ctx timeout) = p
  rcases p with ⟨sc1, err⟩
  cases err with
  | none => simp
  | some e => simp

/-- C3: one call of `scrapeAndReport` without an error channel returns, and, `err`
being the result of the scraper's `scrape`, it appends exactly one outcome to the
store, with the scraper's `url()` and with health Good (1) when `err` is nil and Bad
(0) otherwise, never Unknown; the calls it makes on the scraper and the store are, in
this order, `scrape`, `url`, `Add` and `report`, so that `report` is called exactly
once, with that same `err`, whether the scrape succeeded or not. For a
`targetScraper` the health of the target after the call is the health of the appended
outcome. -/
theorem scrapeAndReport_one_outcome {σ : Type} (sl : scrapeLoop σ)
    (interval timeout : Duration) (appendTime : Time) (clk : Readings)
    (ts : targetScraper) (jitterSeed : Nat) (store : Storage) (ctx : Context)
    (stopped : Bool) (calls : List Call) :
    (∃ (sc1 : σ) (err : Option GoError) (health : TargetHealth),
      sl.scraper.scrape sl.sc (Context.WithTimeout sl.ctx timeout) = (sc1, err) ∧
      (err = none → health = HealthGood) ∧ (err ≠ none → health = HealthBad) ∧
      health ≠ HealthUnknown ∧
      (sl.scrapeAndReport interval timeout appendTime none clk).ret = some clk.start ∧
      (sl.scrapeAndReport interval timeout appendTime none clk).sl.store.rws =
        sl.store.rws ++
          [{ URL := sl.scraper.url sc1, Status := health,
             ResponseTime := clk.atAdd - clk.start }] ∧
      (sl.scrapeAndReport interval timeout appendTime none clk).sl.calls =
        sl.calls ++
          [Call.scrape (Context.WithTimeout sl.ctx timeout), Call.url,
           Call.add (sl.scraper.url sc1) health (clk.atAdd - clk.start),
           Call.report clk.start (clk.atReport - clk.start) err] ∧
      (sl.scrapeAndReport interval timeout appendTime none clk).sl.sc =
        sl.scraper.report sc1 clk.start (clk.atReport - clk.start) err) ∧
    (∃ out : TargetResponse,
      ((scrapeLoop.mk targetScraperImpl ts jitterSeed store ctx stopped calls).scrapeAndReport
          interval timeout appendTime none clk).sl.store.rws = store.rws ++ [out] ∧
      ((scrapeLoop.mk targetScraperImpl ts jitterSeed store ctx stopped calls).scrapeAndReport
          interval timeout appendTime none clk).sl.sc.target.health = out.Status ∧
      out.URL = ts.url) := by
  constructor
  · rw [scrapeAndReport_nil_errc]
    refine ⟨(sl.scraper.scrape sl.sc (Context.WithTimeout sl.ctx timeout)).1,
      (sl.scraper.scrape sl.sc (Context.WithTimeout sl.ctx timeout)).2,
      if (sl.scraper.scrape sl.sc (Context.WithTimeout sl.ctx timeout)).2 = none
        then HealthGood else HealthBad, rfl, ?_, ?_, ?_, rfl, rfl, rfl, rfl⟩
    · intro h; rw [if_pos h]
    · intro h; rw [if_neg h]
    · exact health_of_err_ne_unknown _
  · rw [scrapeAndReport_nil_errc]
    refine ⟨_, rfl, ?_, ?_⟩
    · simp [targetScraperImpl, targetScraper.report, Target.report]
    · simp only [targetScraperImpl, targetScraper.url, targetScraper.scrape, Target.URL]
      cases ts.req <;> simp only []
      · cases ts.client.newRequestErr ts.target.url <;> simp only []
        · split <;> [rfl; (split <;> rfl)]
      · split <;> [rfl; (split <;> rfl)]

/-- The scenario of the specification: a target `http://foo.com` scraped
successfully with a latency of two seconds yields the one outcome
`{http://foo.com, Good, 2000ms}`. -/
theorem scrapeAndReport_foo :
    ((newScrapeLoop Context.Background targetScraperImpl
        { target := NewTarget "http://foo.com"
          client := { newRequestErr := fun _ => none
                      Do := fun _ _ _ => Except.ok { Status := "200 OK", StatusCode := 200 }
                      calls := 0 }
          req := none
          timeout := 3 * second }
        { rws := [], chSize := 0 } 0).scrapeAndReport (5 * second) (3 * second) 0 none
        { start := 0, atAdd := 2 * second, atReport := 2 * second }).sl.store.rws
      = [{ URL := "http://foo.com", Status := 1, ResponseTime := 2000 * millisecond }] := by
  decide

/-! ## `targetScraper.scrape` -/

theorem Contains.append_left (s w p : String) (h : Contains s w) : Contains (p ++ s) w := by
  obtain ⟨a, b, hab⟩ := h
  exact ⟨p ++ a, b, by rw [hab]; simp [String.append_assoc]⟩

/-- The result of `scrape` once the request exists, by the outcome of the
transport. -/
theorem targetScraper.scrape_eq (s : targetScraper) (ctx : Context)
    (hreq : s.req = none → s.client.newRequestErr s.target.URL = none) :
    (s.scrape ctx).2 =
      match s.client.Do s.client.calls s.request ctx with
      | Except.error err => some err
      | Except.ok resp =>
        if resp.StatusCode ≠ StatusOK then
          some (GoError.errorf ("server returned HTTP status " ++ resp.Status))
        else none := by
  unfold targetScraper.scrape targetScraper.request
  cases hr : s.req with
  | none =>
    simp only [hreq hr, Option.getD_none]
    cases s.client.Do s.client.calls
        { method := "GET", url := s.target.URL, scrapeTimeout := s.timeout } ctx with
    | error e => rfl
    | ok resp => simp only []; split <;> rfl
  | some req =>
    simp only [Option.getD_some]
    cases s.client.Do s.client.calls req ctx with
    | error e => rfl
    | ok resp => simp only []; split <;> rfl

/-- C4 (as amended): for a `targetScraper` whose request exists or can be built, and
every outcome of the transport for that request: if the transport returns an error,
`scrape` returns that error; if it returns a response whose status code is 200,
`scrape` returns nil; if it returns a response with any other status code, a code of
the class 2xx other than 200 included, `scrape` returns an error whose message is
"server returned HTTP status " followed by the status text of the response, so that
whatever occurs in the status text (the digits of the code, for a response read by
`net/http`) occurs in the message. -/
theorem scrape_by_status (s : targetScraper) (ctx : Context)
    (hreq : s.req = none → s.client.newRequestErr s.target.URL = none) :
    (∀ e, s.client.Do s.client.calls s.request ctx = Except.error e →
      (s.scrape ctx).2 = some e) ∧
    (∀ resp, s.client.Do s.client.calls s.request ctx = Except.ok resp →
      resp.StatusCode = 200 → (s.scrape ctx).2 = none) ∧
    (∀ resp, s.client.Do s.client.calls s.request ctx = Except.ok resp →
      resp.StatusCode ≠ 200 →
      ∃ err : GoError, (s.scrape ctx).2 = some err ∧
        err.Error = "server returned HTTP status " ++ resp.Status ∧
        ∀ w, Contains resp.Status w → Contains err.Error w) := by
  rw [targetScraper.scrape_eq s ctx hreq]
  refine ⟨?_, ?_, ?_⟩
  · intro e he
    rw [he]
  · intro resp hresp hc
    rw [hresp]
    simp only [StatusOK]
    rw [if_neg (by simpa using hc)]
  · intro resp hresp hc
    rw [hresp]
    simp only [StatusOK]
    rw [if_pos hc]
    exact ⟨_, rfl, rfl, fun w hw => Contains.append_left _ _ _ hw⟩

/-- Witness for C4: the answer `404 Not Found` gives an error whose
message contains "404". -/
theorem scrape_by_status_witness :
    ∃ err : GoError,
      (targetScraper.scrape
        { target := NewTarget "http://foo.com"
          client := constClient (Except.ok { Status := "404 Not Found", StatusCode := 404 })
          req := none, timeout := second } Context.Background).2 = some err ∧
      Contains err.Error "404" := by
  obtain ⟨err, h1, _, h3⟩ :=
    (scrape_by_status
      { target := NewTarget "http://foo.com"
        client := constClient (Except.ok { Status := "404 Not Found", StatusCode := 404 })
        req := none, timeout := second } Context.Background (fun _ => rfl)).2.2
      { Status := "404 Not Found", StatusCode := 404 } rfl (by decide)
  exact ⟨err, h1, h3 "404" ⟨"", " Not Found", by decide⟩⟩

/-- Counterexample for C4: `204 No Content` is a success status, and `scrape` returns
an error for it. -/
theorem scrape_204_is_error :
    specSuccessStatus 204 = true ∧
    (targetScraper.scrape
      { target := NewTarget "http://foo.com"
        client := constClient (Except.ok { Status := "204 No Content", StatusCode := 204 })
        req := none, timeout := second } Context.Background).2
      = some (GoError.errorf "server returned HTTP status 204 No Content") := by
  constructor
  · decide
  · decide

/-! ## Maps -/

theorem mapSet_of_not_mem {κ α : Type} [DecidableEq κ] (m : List (κ × α)) (k : κ) (v : α)
    (h : k ∉ m.map Prod.fst) : mapSet m k v = m ++ [(k, v)] := by
  induction m with
  | nil => rfl
  | cons p m ih =>
    obtain ⟨k1, v1⟩ := p
    simp only [List.map_cons, List.mem_cons, not_or] at h
    simp only [mapSet, if_neg (Ne.symm h.1), ih h.2, List.cons_append]

theorem mapSet_keys_of_mem {κ α : Type} [DecidableEq κ] (m : List (κ × α)) (k : κ) (v : α)
    (h : k ∈ m.map Prod.fst) : (mapSet m k v).map Prod.fst = m.map Prod.fst := by
  induction m with
  | nil => simp at h
  | cons p m ih =>
    obtain ⟨k1, v1⟩ := p
    by_cases hk : k1 = k
    · simp [mapSet, hk]
    · have hm : k ∈ m.map Prod.fst := by
        simp only [List.map_cons, List.mem_cons] at h
        rcases h with h | h
        · exact absurd h.symm hk
        · exact h
      simp only [mapSet, if_neg hk, List.map_cons, ih hm]

theorem mapSet_nodup_keys {κ α : Type} [DecidableEq κ] (m : List (κ × α)) (k : κ) (v : α)
    (h : (m.map Prod.fst).Nodup) : ((mapSet m k v).map Prod.fst).Nodup := by
  by_cases hk : k ∈ m.map Prod.fst
  · rw [mapSet_keys_of_mem m k v hk]; exact h
  · rw [mapSet_of_not_mem m k v hk, List.map_append]
    simp only [List.map_cons, List.map_nil]
    refine List.Nodup.append h (List.nodup_singleton k) ?_
    intro a ha hak
    rw [List.mem_singleton] at hak
    exact hk (hak ▸ ha)

theorem mem_mapSet {κ α : Type} [DecidableEq κ] (m : List (κ × α)) (k : κ) (v : α)
    (p : κ × α) (h : p ∈ mapSet m k v) : p = (k, v) ∨ p ∈ m := by
  induction m with
  | nil => simpa [mapSet] using h
  | cons q m ih =>
    obtain ⟨k1, v1⟩ := q
    by_cases hk : k1 = k
    · simp only [mapSet, if_pos hk, List.mem_cons] at h
      rcases h with h | h
      · exact Or.inl h
      · exact Or.inr (List.mem_cons_of_mem _ h)
    · simp only [mapSet, if_neg hk, List.mem_cons] at h
      rcases h with h | h
      · exact Or.inr (by rw [h]; exact List.mem_cons_self _ _)
      · rcases ih h with h1 | h1
        · exact Or.inl h1
        · exact Or.inr (List.mem_cons_of_mem _ h1)

theorem mapSet_nodup_vals {κ α : Type} [DecidableEq κ] (m : List (κ × α)) (k : κ) (v : α)
    (h : (m.map Prod.snd).Nodup) (hv : v ∉ m.map Prod.snd) :
    ((mapSet m k v).map Prod.snd).Nodup := by
  induction m with
  | nil => simp [mapSet]
  | cons q m ih =>
    obtain ⟨k1, v1⟩ := q
    simp only [List.map_cons, List.nodup_cons, List.mem_cons, not_or] at h hv
    by_cases hk : k1 = k
    · simp only [mapSet, if_pos hk, List.map_cons, List.nodup_cons]
      exact ⟨hv.2, h.2⟩
    · simp only [mapSet, if_neg hk, List.map_cons, List.nodup_cons]
      refine ⟨?_, ih h.2 hv.2⟩
      intro hmem
      obtain ⟨p, hp, hp2⟩ := List.mem_map.mp hmem
      rcases mem_mapSet m k v p hp with h1 | h1
      · rw [h1] at hp2
        exact hv.1 hp2
      · exact h.1 (by rw [← hp2]; exact List.mem_map_of_mem _ h1)

theorem mapGet_mapSet {κ α : Type} [DecidableEq κ] (m : List (κ × α)) (k k1 : κ) (v : α) :
    mapGet (mapSet m k v) k1 = if k = k1 then some v else mapGet m k1 := by
  induction m with
  | nil => simp [mapSet, mapGet]
  | cons q m ih =>
    obtain ⟨k2, v2⟩ := q
    by_cases hk : k2 = k
    · subst hk
      by_cases hk1 : k2 = k1 <;> simp [mapSet, mapGet, hk1]
    · by_cases hk1 : k2 = k1
      · subst hk1
        simp [mapSet, mapGet, hk, Ne.symm hk]
      · simp [mapSet, mapGet, hk, hk1, ih]

theorem mapGet_eq_none_of_not_mem {κ α : Type} [DecidableEq κ] (m : List (κ × α)) (k : κ)
    (h : k ∉ m.map Prod.fst) : mapGet m k = none := by
  induction m with
  | nil => rfl
  | cons q m ih =>
    obtain ⟨k2, v2⟩ := q
    simp only [List.map_cons, List.mem_cons, not_or] at h
    simp [mapGet, Ne.symm h.1, ih h.2]

theorem mapGet_append_singleton {κ α : Type} [DecidableEq κ] (m : List (κ × α)) (k k1 : κ)
    (v : α) (h : k ∉ m.map Prod.fst) :
    mapGet (m ++ [(k, v)]) k1 = if k = k1 then some v else mapGet m k1 := by
  rw [← mapSet_of_not_mem m k v h, mapGet_mapSet]

theorem mem_of_mapGet {κ α : Type} [DecidableEq κ] (m : List (κ × α)) (k : κ) (v : α)
    (h : mapGet m k = some v) : (k, v) ∈ m := by
  induction m with
  | nil => simp [mapGet] at h
  | cons q m ih =>
    obtain ⟨k2, v2⟩ := q
    by_cases hk : k2 = k
    · simp only [mapGet, if_pos hk, Option.some.injEq] at h
      rw [hk, h]; exact List.mem_cons_self _ _
    · simp only [mapGet, if_neg hk] at h
      exact List.mem_cons_of_mem _ (ih h)

/-! ## The scrape pool -/

/-- The function `register` with the constructor wired by `NewScrapePool`. -/
theorem ScrapePool.register_default (sp : ScrapePool) (t : Target)
    (hn : sp.newLoop = defaultNewLoop) :
    sp.register sp.config.ScrapeTimeout t =
      { sp with
        objects := sp.objects ++ [sp.builtLoop t]
        loops := mapSet sp.loops t.hash (some sp.objects.length)
        events := sp.events ++ [PoolEvent.newLoop t.URL t.hash (some sp.objects.length)] } := by
  simp only [ScrapePool.register, hn, defaultNewLoop, ScrapePool.builtLoop]

/-- The first loop of `Start` on targets with distinct hashes none of which is in the
map yet: the `i`-th target gets the `i`-th new loop object. -/
theorem ScrapePool.foldl_register_fresh (targets : List Target) :
    ∀ (sp : ScrapePool), sp.newLoop = defaultNewLoop →
      (∀ t ∈ targets, t.hash ∉ sp.loops.map Prod.fst) →
      (targets.map Target.hash).Nodup →
      targets.foldl (fun p t => p.register sp.config.ScrapeTimeout t) sp =
        { sp with
          objects := sp.objects ++ targets.map sp.builtLoop
          loops := sp.loops ++
            (targets.enumFrom sp.objects.length).map (fun p => (p.2.hash, some p.1))
          events := sp.events ++
            (targets.enumFrom sp.objects.length).map
              (fun p => PoolEvent.newLoop p.2.URL p.2.hash (some p.1)) } := by
  induction targets with
  | nil => intro sp _ _ _; simp
  | cons t ts ih =>
    intro sp hn hfresh hd
    simp only [List.foldl_cons]
    rw [ScrapePool.register_default sp t hn]
    have ht : t.hash ∉ sp.loops.map Prod.fst := hfresh t (List.mem_cons_self _ _)
    rw [mapSet_of_not_mem _ _ _ ht]
    simp only [List.map_cons, List.nodup_cons] at hd
    have := ih { sp with
        objects := sp.objects ++ [sp.builtLoop t]
        loops := sp.loops ++ [(t.hash, some sp.objects.length)]
        events := sp.events ++ [PoolEvent.newLoop t.URL t.hash (some sp.objects.length)] }
      hn
      (by
        intro t1 ht1
        simp only [List.map_append, List.map_cons, List.map_nil, List.mem_append,
          List.mem_singleton, not_or]
        refine ⟨hfresh t1 (List.mem_cons_of_mem _ ht1), ?_⟩
        intro heq
        exact hd.1 (heq ▸ List.mem_map_of_mem _ ht1))
      hd.2
    simp only [] at this
    rw [this]
    simp [ScrapePool.builtLoop, List.enumFrom_cons]

theorem runEvents_enumFrom (targets : List Target) (n : Nat) (interval timeout : Duration) :
    runEvents ((targets.enumFrom n).map (fun p => (p.2.hash, some p.1))) interval timeout =
      (targets.enumFrom n).map (fun p => PoolEvent.run p.1 interval timeout none) := by
  induction targets generalizing n with
  | nil => rfl
  | cons t ts ih =>
    have h := ih (n + 1)
    unfold runEvents at h ⊢
    simp only [List.enumFrom_cons, List.map_cons, List.filterMap_cons, Option.map_some']
    rw [h]

theorem mapGet_enumFrom (targets : List Target) (n : Nat)
    (hd : (targets.map Target.hash).Nodup) (i : Nat) (h : i < targets.length) :
    mapGet ((targets.enumFrom n).map (fun p => (p.2.hash, some p.1)))
      (targets.get ⟨i, h⟩).hash = some (some (n + i)) := by
  induction targets generalizing n i with
  | nil => simp at h
  | cons t ts ih =>
    simp only [List.map_cons, List.nodup_cons] at hd
    cases i with
    | zero => simp [List.enumFrom_cons, mapGet]
    | succ j =>
      have hj : j < ts.length := by simpa using h
      have hne : ¬ t.hash = (ts.get ⟨j, hj⟩).hash := by
        intro heq
        exact hd.1 (heq ▸ List.mem_map_of_mem _ (List.get_mem ts j hj))
      have := ih (n + 1) hd.2 j hj
      simp only [List.enumFrom_cons, List.map_cons, mapGet, List.get_cons_succ, if_neg hne]
      rw [this]
      congr 2
      omega

theorem PoolInv.register (sp : ScrapePool) (timeout : Duration) (t : Target)
    (h : PoolInv sp) : PoolInv (sp.register timeout t) := by
  have hr : sp.register timeout t =
      { sp with
        objects := sp.objects ++ [newScrapeLoop sp.ctx targetScraperImpl
          { target := t, client := sp.client, req := none, timeout := timeout }
          sp.store sp.config.JitterSeed]
        loops := mapSet sp.loops t.hash (some sp.objects.length)
        events := sp.events ++ [PoolEvent.newLoop t.URL t.hash (some sp.objects.length)] } := by
    simp only [ScrapePool.register, h.ctor, defaultNewLoop]
  rw [hr]
  refine ⟨h.ctor, mapSet_nodup_keys _ _ _ h.keys, mapSet_nodup_vals _ _ _ h.refs ?_, ?_⟩
  · intro hmem
    obtain ⟨p, hp, hp2⟩ := List.mem_map.mp hmem
    obtain ⟨l, hl, hlt⟩ := h.built p hp
    rw [hl] at hp2
    simp only [Option.some.injEq] at hp2
    omega
  · intro p hp
    simp only [List.length_append, List.length_singleton]
    rcases mem_mapSet _ _ _ p hp with h1 | h1
    · exact ⟨sp.objects.length, by rw [h1], by omega⟩
    · obtain ⟨l, hl, hlt⟩ := h.built p h1
      exact ⟨l, hl, by omega⟩

theorem PoolInv.foldl_register (timeout : Duration) (targets : List Target) :
    ∀ sp : ScrapePool, PoolInv sp →
      PoolInv (targets.foldl (fun p t => p.register timeout t) sp) := by
  induction targets with
  | nil => intro sp h; exact h
  | cons t ts ih => intro sp h; exact ih _ (PoolInv.register sp timeout t h)

theorem ScrapePool.register_config (sp : ScrapePool) (timeout : Duration) (t : Target) :
    (sp.register timeout t).config = sp.config := by
  simp only [ScrapePool.register]
  split <;> rfl

/-- The call `Start` on a pool with a positive interval does not panic; the map it leaves is
the one built by its first loop. -/
theorem ScrapePool.Start_eq (sp : ScrapePool) (targets : List Target)
    (hI : 0 < sp.config.ScrapeInterval) :
    sp.Start targets =
      some { targets.foldl (fun p t => p.register sp.config.ScrapeTimeout t) sp with
        events := (targets.foldl (fun p t => p.register sp.config.ScrapeTimeout t) sp).events
          ++ runEvents (targets.foldl (fun p t => p.register sp.config.ScrapeTimeout t) sp).loops
              sp.config.ScrapeInterval sp.config.ScrapeTimeout
        drains := (targets.foldl (fun p t => p.register sp.config.ScrapeTimeout t) sp).drains
          + 1 } := by
  unfold ScrapePool.Start
  simp only []
  rw [if_neg (not_le.mpr hI)]

theorem NewScrapePool_eq (client : HttpClient) (cfg : ScrapeConfig) (hS : 0 ≤ cfg.StoreSize) :
    NewScrapePool client cfg =
      some ({ ctx := Context.WithCancel Context.Background
              client := client
              loops := []
              config := cfg
              store := { rws := [], chSize := cfg.StoreSize }
              exporter := { metrics := NewMetrics, entries := [] }
              quitClosed := false
              newLoop := defaultNewLoop
              objects := []
              drains := 0
              events := [] }, none) := by
  have h0 : ¬ cfg.StoreSize < 0 := not_lt.mpr hS
  simp only [NewScrapePool, NewStorage, NewExporter, if_neg h0]

theorem PoolInv.fresh (client : HttpClient) (cfg : ScrapeConfig) :
    PoolInv { ctx := Context.WithCancel Context.Background
              client := client
              loops := []
              config := cfg
              store := { rws := [], chSize := cfg.StoreSize }
              exporter := { metrics := NewMetrics, entries := [] }
              quitClosed := false
              newLoop := defaultNewLoop
              objects := []
              drains := 0
              events := [] } :=
  ⟨rfl, List.nodup_nil, List.nodup_nil, fun _ hp => absurd hp (List.not_mem_nil _)⟩

/-- The call `Start` on a pool with an empty loop map, the constructor wired by
`NewScrapePool`, a positive interval and targets with distinct hashes. -/
theorem ScrapePool.Start_fresh (sp : ScrapePool) (targets : List Target)
    (hI : 0 < sp.config.ScrapeInterval) (hn : sp.newLoop = defaultNewLoop)
    (hl : sp.loops = []) (hd : (targets.map Target.hash).Nodup) :
    sp.Start targets =
      some { sp with
        objects := sp.objects ++ targets.map sp.builtLoop
        loops := (targets.enumFrom sp.objects.length).map (fun p => (p.2.hash, some p.1))
        events := sp.events ++
          (targets.enumFrom sp.objects.length).map
            (fun p => PoolEvent.newLoop p.2.URL p.2.hash (some p.1)) ++
          (targets.enumFrom sp.objects.length).map
            (fun p => PoolEvent.run p.1 sp.config.ScrapeInterval sp.config.ScrapeTimeout none)
        drains := sp.drains + 1 } := by
  rw [ScrapePool.Start_eq _ _ hI]
  rw [ScrapePool.foldl_register_fresh targets sp hn (by simp [hl]) hd]
  simp only [hl, List.nil_append, runEvents_enumFrom]

/-- The pool that `NewScrapePool` returns for a store size that `make` accepts. -/
theorem NewScrapePool_fresh (client : HttpClient) (cfg : ScrapeConfig)
    (hS : 0 ≤ cfg.StoreSize) :
    ∃ sp : ScrapePool, NewScrapePool client cfg = some (sp, none) ∧ PoolInv sp ∧
      sp.loops = [] ∧ sp.objects = [] ∧ sp.events = [] ∧ sp.config = cfg ∧
      sp.quitClosed = false ∧ sp.store = { rws := [], chSize := cfg.StoreSize } ∧
      sp.exporter = { metrics := NewMetrics, entries := [] } :=
  ⟨_, NewScrapePool_eq client cfg hS, PoolInv.fresh client cfg, rfl, rfl, rfl, rfl, rfl, rfl,
    rfl⟩

/-- C5: for a configuration with a positive scrape interval (and a store size that
`make` accepts) and targets whose hashes are pairwise distinct, `Start` on the pool
that `NewScrapePool` returns leaves exactly `len(targets)` entries in the loop map;
under the hash of the `i`-th target it holds the `i`-th loop object, which is the one
built by the `i`-th call of the `newLoop` constructor for that target; after those
calls `Start` executes `go l.run(interval, timeout, nil)` once for every registered
loop, with the configured interval and timeout, in some order. For any list of
targets, with shared hashes or not, no hash has more than one entry in the map. -/
theorem Start_registers_and_runs (client : HttpClient) (cfg : ScrapeConfig)
    (targets others : List Target) (hS : 0 ≤ cfg.StoreSize) (hI : 0 < cfg.ScrapeInterval)
    (hd : (targets.map Target.hash).Nodup) :
    ∃ (sp sp1 : ScrapePool) (runs : List PoolEvent),
      NewScrapePool client cfg = some (sp, none) ∧
      sp.Start targets = some sp1 ∧
      sp1.loops.length = targets.length ∧
      (∀ (i : Nat) (h : i < targets.length),
        mapGet sp1.loops (targets.get ⟨i, h⟩).hash = some (some i)) ∧
      sp1.objects = targets.map sp.builtLoop ∧
      sp1.events =
        targets.enum.map (fun p => PoolEvent.newLoop p.2.URL p.2.hash (some p.1)) ++ runs ∧
      runs.Perm (targets.enum.map
        (fun p => PoolEvent.run p.1 cfg.ScrapeInterval cfg.ScrapeTimeout none)) ∧
      ∃ sp2 : ScrapePool, sp.Start others = some sp2 ∧
        ∀ h : Nat, (sp2.loops.map Prod.fst).count h ≤ 1 := by
  obtain ⟨sp, hnew, hinv, hl, ho, he, hc, _, _, _⟩ := NewScrapePool_fresh client cfg hS
  have hI1 : 0 < sp.config.ScrapeInterval := by rw [hc]; exact hI
  refine ⟨sp, _, targets.enum.map
      (fun p => PoolEvent.run p.1 cfg.ScrapeInterval cfg.ScrapeTimeout none),
    hnew, ScrapePool.Start_fresh sp targets hI1 hinv.ctor hl hd, ?_, ?_, ?_, ?_,
    List.Perm.refl _, ?_⟩
  · simp
  · intro i h
    simp only [ho, List.length_nil]
    rw [mapGet_enumFrom targets 0 hd i h]
    simp
  · simp [ho]
  · simp only [ho, he, hc, List.nil_append, List.length_nil, List.enum]
  · rw [ScrapePool.Start_eq _ _ hI1]
    refine ⟨_, rfl, ?_⟩
    have hinv2 := PoolInv.foldl_register sp.config.ScrapeTimeout others sp hinv
    exact List.nodup_iff_count_le_one.mp hinv2.keys

/-- Witness for C5: the two targets and the configuration of
`TestScrapePoolScrapeLoopsStarted` leave two loops in the map. -/
theorem Start_registers_and_runs_witness :
    ∃ sp sp1 : ScrapePool,
      NewScrapePool (constClient (Except.ok { Status := "200 OK", StatusCode := 200 }))
        { ScrapeInterval := 3 * second, ScrapeTimeout := 2 * second, StoreSize := 0,
          JitterSeed := 0 } = some (sp, none) ∧
      sp.Start [NewTarget "http://foo.com", NewTarget "http://bar.com"] = some sp1 ∧
      sp1.loops.length = 2 := by
  obtain ⟨sp, sp1, _, h1, h2, h3, _⟩ :=
    Start_registers_and_runs
      (constClient (Except.ok { Status := "200 OK", StatusCode := 200 }))
      { ScrapeInterval := 3 * second, ScrapeTimeout := 2 * second, StoreSize := 0,
        JitterSeed := 0 }
      [NewTarget "http://foo.com", NewTarget "http://bar.com"]
      [NewTarget "http://foo.com", NewTarget "http://foo.com"]
      (by decide) (by decide) (by decide)
  exact ⟨sp, sp1, h1, h2, h3⟩

theorem PoolInv.Start (sp sp1 : ScrapePool) (targets : List Target) (h : PoolInv sp)
    (hs : sp.Start targets = some sp1) :
    PoolInv sp1 ∧ sp1.quitClosed = sp.quitClosed := by
  have hinv := PoolInv.foldl_register sp.config.ScrapeTimeout targets sp h
  have hq : ∀ (ts : List Target) (p : ScrapePool),
      (ts.foldl (fun p t => p.register sp.config.ScrapeTimeout t) p).quitClosed
        = p.quitClosed := by
    intro ts
    induction ts with
    | nil => intro p; rfl
    | cons t ts ih =>
      intro p
      simp only [List.foldl_cons]
      rw [ih]
      simp only [ScrapePool.register]
      split <;> rfl
  unfold ScrapePool.Start at hs
  simp only [] at hs
  split at hs
  · exact absurd hs (by simp)
  · simp only [Option.some.injEq] at hs
    subst hs
    exact ⟨⟨hinv.ctor, hinv.keys, hinv.refs, hinv.built⟩, hq targets sp⟩

theorem PoolInv.registered_nodup (sp : ScrapePool) (h : PoolInv sp) :
    (registered sp.loops).Nodup := by
  have : registered sp.loops = (sp.loops.map Prod.snd).filterMap id := by
    unfold registered
    rw [List.filterMap_map]
    rfl
  rw [this]
  refine List.Nodup.filterMap ?_ h.refs
  intro a a1 b hb hb1
  simp only [id, Option.mem_def] at hb hb1
  rw [hb, hb1]

theorem PoolInv.any_nil_eq_false (sp : ScrapePool) (h : PoolInv sp) :
    sp.loops.any (fun p => p.2.isNone) = false := by
  rw [List.any_eq_false]
  intro p hp
  obtain ⟨l, hl, _⟩ := h.built p hp
  simp [hl]

theorem PoolInv.registered_lt (sp : ScrapePool) (h : PoolInv sp) (l : Nat)
    (hl : l ∈ registered sp.loops) : l < sp.objects.length := by
  unfold registered at hl
  obtain ⟨p, hp, hp2⟩ := List.mem_filterMap.mp hl
  obtain ⟨l1, hl1, hlt⟩ := h.built p hp
  rw [hl1] at hp2
  simp only [Option.some.injEq] at hp2
  omega

/-- The call `l.stop()` leaves a cancelled context. -/
theorem scrapeLoop.stop_ctx_err {σ : Type} (sl : scrapeLoop σ) :
    (scrapeLoop.stop sl).1.ctx.err ≠ none := by
  simp only [scrapeLoop.stop, Context.cancel]
  split
  · simp
  · assumption

theorem stopObject_length (objects : List (scrapeLoop targetScraper)) (ls : List Nat) :
    (ls.foldl stopObject objects).length = objects.length := by
  induction ls generalizing objects with
  | nil => rfl
  | cons l ls ih =>
    simp only [List.foldl_cons]
    rw [ih]
    simp [stopObject]

/-- A context that is cancelled stays cancelled under the `stop` calls of `Stop`. -/
theorem stopObject_keeps (ls : List Nat) (objects : List (scrapeLoop targetScraper))
    (i : Nat) (o : scrapeLoop targetScraper) (ho : objects[i]? = some o)
    (herr : o.ctx.err ≠ none) :
    ∃ o1, (ls.foldl stopObject objects)[i]? = some o1 ∧ o1.ctx.err ≠ none := by
  induction ls generalizing objects o with
  | nil => exact ⟨o, ho, herr⟩
  | cons l ls ih =>
    simp only [List.foldl_cons]
    by_cases hli : l = i
    · refine ih (stopObject objects l) (scrapeLoop.stop o).1 ?_ (scrapeLoop.stop_ctx_err o)
      simp [stopObject, hli, List.getElem?_modify, ho]
    · refine ih (stopObject objects l) o ?_ herr
      simp only [stopObject]
      rw [List.getElem?_modify_ne _ _ hli]
      exact ho

theorem stopObject_cancels (ls : List Nat) (objects : List (scrapeLoop targetScraper))
    (l : Nat) (hl : l ∈ ls) (hlt : l < objects.length) :
    ∃ o, (ls.foldl stopObject objects)[l]? = some o ∧ o.ctx.err ≠ none := by
  induction ls generalizing objects with
  | nil => simp at hl
  | cons l1 ls ih =>
    simp only [List.foldl_cons]
    by_cases h1 : l1 = l
    · refine stopObject_keeps ls (stopObject objects l1) l
        (scrapeLoop.stop (objects.get ⟨l, hlt⟩)).1 ?_ (scrapeLoop.stop_ctx_err _)
      simp [stopObject, h1, List.getElem?_modify, List.getElem?_eq_getElem hlt]
    · have hl2 : l ∈ ls := by
        rcases List.mem_cons.mp hl with h | h
        · exact absurd h.symm h1
        · exact h
      exact ih (stopObject objects l1) hl2 (by simpa [stopObject] using hlt)

/-- The call `Stop` on a pool whose loops were built by the constructor wired by
`NewScrapePool` and whose `quitCh` is open. -/
theorem ScrapePool.Stop_eq (sp : ScrapePool) (h : PoolInv sp) (hq : sp.quitClosed = false) :
    sp.Stop =
      some { sp with
        ctx := sp.ctx.cancel
        quitClosed := true
        drains := 0
        objects := (registered sp.loops).foldl stopObject sp.objects
        events := sp.events ++ (registered sp.loops).map PoolEvent.stop
        loops := [] } := by
  unfold ScrapePool.Stop
  rw [hq, PoolInv.any_nil_eq_false sp h]
  rfl

/-- C6: for the pool that `NewScrapePool` returns (positive interval, store size that
`make` accepts) after one `Start(targets)`, for any targets, a single call of `Stop`
returns; the map then is empty; every entry of the map was a loop, and the `stop`
calls that `Stop` made are one for each loop that was registered and no other, so
that `stop` is invoked exactly once on every registered loop; the context of each of
these loops is cancelled. -/
theorem Stop_stops_every_loop_once (client : HttpClient) (cfg : ScrapeConfig)
    (targets : List Target) (hS : 0 ≤ cfg.StoreSize) (hI : 0 < cfg.ScrapeInterval) :
    ∃ (sp sp1 sp2 : ScrapePool) (stops : List PoolEvent),
      NewScrapePool client cfg = some (sp, none) ∧
      sp.Start targets = some sp1 ∧
      sp1.Stop = some sp2 ∧
      sp2.loops = [] ∧
      (∀ p ∈ sp1.loops, p.2 ≠ none) ∧
      sp2.events = sp1.events ++ stops ∧
      (∀ l ∈ registered sp1.loops, stops.count (PoolEvent.stop l) = 1) ∧
      (∀ e ∈ stops, ∃ l ∈ registered sp1.loops, e = PoolEvent.stop l) ∧
      (∀ l ∈ registered sp1.loops, ∃ o, sp2.objects[l]? = some o ∧ o.ctx.err ≠ none) := by
  obtain ⟨sp, hnew, hinv, _, _, _, hc, hq, _, _⟩ := NewScrapePool_fresh client cfg hS
  have hI1 : 0 < sp.config.ScrapeInterval := by rw [hc]; exact hI
  have hstart := ScrapePool.Start_eq sp targets hI1
  obtain ⟨hinv1, hq1⟩ := PoolInv.Start sp _ targets hinv hstart
  rw [hq] at hq1
  refine ⟨sp, _, _, _, hnew, hstart, ScrapePool.Stop_eq _ hinv1 hq1, rfl, ?_, rfl, ?_, ?_, ?_⟩
  · intro p hp hnone
    obtain ⟨l, hl, _⟩ := hinv1.built p hp
    rw [hl] at hnone
    exact Option.noConfusion hnone
  · intro l hl
    refine List.count_eq_one_of_mem ?_ (List.mem_map_of_mem _ hl)
    refine List.Nodup.map ?_ (PoolInv.registered_nodup _ hinv1)
    intro a b hab
    exact PoolEvent.stop.inj hab
  · intro e he
    obtain ⟨l, hl, hle⟩ := List.mem_map.mp he
    exact ⟨l, hl, hle.symm⟩
  · intro l hl
    exact stopObject_cancels _ _ l hl (PoolInv.registered_lt _ hinv1 l hl)

/-- Witness for C6: two targets, then `Stop`. -/
theorem Stop_stops_every_loop_once_witness :
    ∃ sp sp1 sp2 : ScrapePool,
      NewScrapePool (constClient (Except.ok { Status := "200 OK", StatusCode := 200 }))
        { ScrapeInterval := 3 * second, ScrapeTimeout := 2 * second, StoreSize := 0,
          JitterSeed := 0 } = some (sp, none) ∧
      sp.Start [NewTarget "http://foo.com", NewTarget "http://bar.com"] = some sp1 ∧
      sp1.Stop = some sp2 ∧ sp2.loops.length = 0 := by
  obtain ⟨sp, sp1, sp2, _, h1, h2, h3, h4, _⟩ :=
    Stop_stops_every_loop_once
      (constClient (Except.ok { Status := "200 OK", StatusCode := 200 }))
      { ScrapeInterval := 3 * second, ScrapeTimeout := 2 * second, StoreSize := 0,
        JitterSeed := 0 }
      [NewTarget "http://foo.com", NewTarget "http://bar.com"] (by decide) (by decide)
  exact ⟨sp, sp1, sp2, h1, h2, h3, by rw [h4]; rfl⟩

/-! ## `scrapeLoop.run` -/

/-- C7: for a loop whose channel `stopped` is open (it has not been run to the end
before), when the scraper's `offset` has returned and the `select` that waits out the
initial offset takes the case `<-sl.ctx.Done()`, `run` returns with the channel
`stopped` closed; the only call it has made on the scraper is `offset`: it has called
neither `scrape` nor `report`, the scraper's state and the store are unchanged, and
nothing was sent on the error channel. This holds whatever the schedule holds for
later. For the loop of a `targetScraper`, `offset` returns for every interval
`0 < I ≤ 2 ^ 62` and every time `now ≥ 0`, so that such a loop, stopped while it
awaits its offset, returns in this way. -/
theorem run_cancelled_while_awaiting_offset {σ : Type} (sl : scrapeLoop σ)
    (interval timeout : Int) (errc : Option ErrChan) (now : Int) (ticks : List Tick)
    (d : Duration) (ts : targetScraper) (jitterSeed : Nat) (store : Storage)
    (ctx : Context) (calls : List Call)
    (hst : sl.stopped = false)
    (hoff : sl.scraper.offset sl.sc interval sl.jitterSeed now = some d) :
    ((sl.run interval timeout errc now (some Wake.done) ticks).status = RunStatus.returned ∧
      (sl.run interval timeout errc now (some Wake.done) ticks).sl.stopped = true ∧
      (sl.run interval timeout errc now (some Wake.done) ticks).sl.calls =
        sl.calls ++ [Call.offset interval sl.jitterSeed] ∧
      (sl.run interval timeout errc now (some Wake.done) ticks).sl.store = sl.store ∧
      (sl.run interval timeout errc now (some Wake.done) ticks).sl.sc = sl.sc ∧
      (sl.run interval timeout errc now (some Wake.done) ticks).errc = errc) ∧
    (0 < interval → interval ≤ 2 ^ 62 → 0 ≤ now →
      ((scrapeLoop.mk targetScraperImpl ts jitterSeed store ctx false calls).run
          interval timeout errc now (some Wake.done) ticks).status = RunStatus.returned ∧
      ((scrapeLoop.mk targetScraperImpl ts jitterSeed store ctx false calls).run
          interval timeout errc now (some Wake.done) ticks).sl.stopped = true ∧
      ((scrapeLoop.mk targetScraperImpl ts jitterSeed store ctx false calls).run
          interval timeout errc now (some Wake.done) ticks).sl.calls =
        calls ++ [Call.offset interval jitterSeed] ∧
      ((scrapeLoop.mk targetScraperImpl ts jitterSeed store ctx false calls).run
          interval timeout errc now (some Wake.done) ticks).sl.store = store ∧
      ((scrapeLoop.mk targetScraperImpl ts jitterSeed store ctx false calls).run
          interval timeout errc now (some Wake.done) ticks).sl.sc.target = ts.target) := by
  constructor
  · simp [scrapeLoop.run, scrapeLoop.closeStopped, hoff, hst]
  · intro hI hI2 hnow
    have hts : targetScraperImpl.offset ts interval jitterSeed now
        = ts.target.offset interval jitterSeed now := rfl
    have hsome := Target.offset_eq ts.target interval jitterSeed now hI hI2 hnow
    simp [scrapeLoop.run, scrapeLoop.closeStopped, hts, hsome]

/-- Witness for C7: the first half of
`TestScrapeLoopRun`, a test scraper with an offset of one hour, an interval of one
second, and a schedule that would go on to scrape had the loop not been stopped. -/
theorem run_cancelled_while_awaiting_offset_witness :
    ((newScrapeLoop Context.Background testScraperImpl
        { offsetDur := 3600 * second, lastStart := 0, lastDuration := 0, lastError := none,
          scrapeErr := none, scrapeFunc := none }
        { rws := [], chSize := 0 } 0).run second (3600 * second)
        (some { sent := [], ready := false }) 0 (some Wake.done)
        [{ cancelled := false, cancelledInFlight := false, scrapeTime := 0,
           clk := { start := 0, atAdd := 1, atReport := 1 }, wake := Wake.timer }]).status
      = RunStatus.returned ∧
    ((newScrapeLoop Context.Background testScraperImpl
        { offsetDur := 3600 * second, lastStart := 0, lastDuration := 0, lastError := none,
          scrapeErr := none, scrapeFunc := none }
        { rws := [], chSize := 0 } 0).run second (3600 * second)
        (some { sent := [], ready := false }) 0 (some Wake.done)
        [{ cancelled := false, cancelledInFlight := false, scrapeTime := 0,
           clk := { start := 0, atAdd := 1, atReport := 1 }, wake := Wake.timer }]).sl.calls
      = [Call.offset second 0] :=
  have h := run_cancelled_while_awaiting_offset
    (newScrapeLoop Context.Background testScraperImpl
      { offsetDur := 3600 * second, lastStart := 0, lastDuration := 0, lastError := none,
        scrapeErr := none, scrapeFunc := none }
      { rws := [], chSize := 0 } 0) second (3600 * second)
    (some { sent := [], ready := false }) 0
    [{ cancelled := false, cancelledInFlight := false, scrapeTime := 0,
       clk := { start := 0, atAdd := 1, atReport := 1 }, wake := Wake.timer }]
    (3600 * second)
    { target := NewTarget "http://foo.com", client := ctxClient, req := none,
      timeout := second }
    0 { rws := [], chSize := 0 } Context.Background [] rfl rfl
  ⟨h.1.1, h.1.2.2.1⟩

/-- Had the timer fired first on the same schedule, the loop would have scraped. -/
theorem run_timer_first_scrapes :
    ((newScrapeLoop Context.Background testScraperImpl
        { offsetDur := 0, lastStart := 0, lastDuration := 0, lastError := none,
          scrapeErr := none, scrapeFunc := none }
        { rws := [], chSize := 0 } 0).run second (3600 * second) none 0 (some Wake.timer)
        [{ cancelled := false, cancelledInFlight := false, scrapeTime := 0,
           clk := { start := 0, atAdd := 1, atReport := 1 }, wake := Wake.done }]).sl.store.rws
      = [{ URL := "http://foobar.com", Status := HealthGood, ResponseTime := 1 }] := by
  decide

/-! ## `NewScrapePool` -/

/-- C9 (as amended): `NewScrapePool` does not validate its configuration. It never
returns a non-nil error; for every configuration whose store size `make` accepts, one
whose scrape interval is not greater than 0 included, it returns a pool with that
configuration and a nil error. A pool whose interval is not greater than 0 is stopped
only by the panic of `time.NewTicker` in `Start`. -/
theorem NewScrapePool_never_fails (client : HttpClient) (cfg : ScrapeConfig)
    (targets : List Target) :
    (∀ r, NewScrapePool client cfg = some r → r.2 = none) ∧
    (0 ≤ cfg.StoreSize →
      ∃ sp : ScrapePool, NewScrapePool client cfg = some (sp, none) ∧ sp.config = cfg ∧
        (cfg.ScrapeInterval ≤ 0 → sp.Start targets = none)) := by
  constructor
  · intro r hr
    unfold NewScrapePool at hr
    split at hr
    · simp only [Option.some.injEq] at hr
      rw [← hr]
    · exact absurd hr (by simp)
  · intro hS
    refine ⟨_, NewScrapePool_eq client cfg hS, rfl, ?_⟩
    intro hI
    simp only [ScrapePool.Start, if_pos hI]

/-- Witness for C9: a configuration with interval 0. -/
theorem NewScrapePool_never_fails_witness :
    ∃ sp : ScrapePool,
      NewScrapePool (constClient (Except.ok { Status := "200 OK", StatusCode := 200 }))
        { ScrapeInterval := 0, ScrapeTimeout := 2 * second, StoreSize := 10,
          JitterSeed := 0 } = some (sp, none) ∧
      sp.config.ScrapeInterval = 0 := by
  obtain ⟨sp, h1, h2, _⟩ :=
    (NewScrapePool_never_fails
      (constClient (Except.ok { Status := "200 OK", StatusCode := 200 }))
      { ScrapeInterval := 0, ScrapeTimeout := 2 * second, StoreSize := 10, JitterSeed := 0 }
      []).2 (by decide)
  exact ⟨sp, h1, by rw [h2]⟩

/-- Counterexample for C9: for a configuration whose scrape interval is 0, and for one
whose interval is negative, `NewScrapePool` returns a nil error. -/
theorem NewScrapePool_accepts_bad_interval :
    (NewScrapePool (constClient (Except.ok { Status := "200 OK", StatusCode := 200 }))
        { ScrapeInterval := 0, ScrapeTimeout := 2 * second, StoreSize := 10,
          JitterSeed := 0 }).map Prod.snd = some none ∧
    (NewScrapePool (constClient (Except.ok { Status := "200 OK", StatusCode := 200 }))
        { ScrapeInterval := -5 * second, ScrapeTimeout := 2 * second, StoreSize := 10,
          JitterSeed := 0 }).map Prod.snd = some none := by
  constructor <;> decide

/-! ## Cancellation seen by a scrape -/

/-- What `scrapeAndReport` does when the scrape fails and the error, if there is a
channel for it, can be handed over. -/
theorem scrapeAndReport_failed {σ : Type} (sl : scrapeLoop σ) (interval timeout : Duration)
    (appendTime : Time) (errc : Option ErrChan) (clk : Readings) (sc1 : σ) (e : GoError)
    (hs : sl.scraper.scrape sl.sc (Context.WithTimeout sl.ctx timeout) = (sc1, some e))
    (hready : ∀ ch, errc = some ch → ch.ready = true) :
    sl.scrapeAndReport interval timeout appendTime errc clk =
      { sl := { sl with
                sc := sl.scraper.report sc1 clk.start (clk.atReport - clk.start) (some e)
                store :=
                  { sl.store with
                    rws := sl.store.rws ++
                      [{ URL := sl.scraper.url sc1, Status := HealthBad,
                         ResponseTime := clk.atAdd - clk.start }] }
                calls := sl.calls ++
                  [Call.scrape (Context.WithTimeout sl.ctx timeout), Call.url,
                   Call.add (sl.scraper.url sc1) HealthBad (clk.atAdd - clk.start),
                   Call.report clk.start (clk.atReport - clk.start) (some e)] }
        errc := errc.map (fun ch => { ch with sent := ch.sent ++ [e] })
        ret := some clk.start } := by
  simp only [scrapeLoop.scrapeAndReport, Storage.Add, hs]
  cases errc with
  | none => simp
  | some ch => simp [hready ch rfl]

/-- C10 (as amended): a probe that ends because it observed the shutdown signal is
recorded like any other failed probe. For every `scrapeAndReport` call whose scrape
returns the cancellation error (and whose error channel, if any, takes the error),
the call appends one outcome with health Bad to the store and reports the
cancellation error to the scraper; for a `targetScraper` this sets the target's
health to Bad and its last error to the cancellation error. -/
theorem cancelled_scrape_recorded_as_bad {σ : Type} (sl : scrapeLoop σ)
    (interval timeout : Duration) (appendTime : Time) (errc : Option ErrChan)
    (clk : Readings) (sc1 : σ)
    (ts : targetScraper) (jitterSeed : Nat) (store : Storage) (ctx : Context)
    (stopped : Bool) (calls : List Call)
    (hready : ∀ ch, errc = some ch → ch.ready = true) :
    (sl.scraper.scrape sl.sc (Context.WithTimeout sl.ctx timeout)
        = (sc1, some GoError.canceled) →
      (sl.scrapeAndReport interval timeout appendTime errc clk).sl.store.rws =
        sl.store.rws ++ [{ URL := sl.scraper.url sc1, Status := HealthBad,
                           ResponseTime := clk.atAdd - clk.start }] ∧
      (sl.scrapeAndReport interval timeout appendTime errc clk).sl.sc =
        sl.scraper.report sc1 clk.start (clk.atReport - clk.start)
          (some GoError.canceled)) ∧
    ((ts.scrape (Context.WithTimeout ctx timeout)).2 = some GoError.canceled →
      ((scrapeLoop.mk targetScraperImpl ts jitterSeed store ctx stopped calls).scrapeAndReport
          interval timeout appendTime errc clk).sl.store.rws =
        store.rws ++ [{ URL := ts.url, Status := HealthBad,
                        ResponseTime := clk.atAdd - clk.start }] ∧
      ((scrapeLoop.mk targetScraperImpl ts jitterSeed store ctx stopped calls).scrapeAndReport
          interval timeout appendTime errc clk).sl.sc.target.health = HealthBad ∧
      ((scrapeLoop.mk targetScraperImpl ts jitterSeed store ctx stopped calls).scrapeAndReport
          interval timeout appendTime errc clk).sl.sc.target.lastError
        = some GoError.canceled) := by
  constructor
  · intro hs
    rw [scrapeAndReport_failed sl interval timeout appendTime errc clk sc1 _ hs hready]
    exact ⟨rfl, rfl⟩
  · intro hs
    have hs1 : (scrapeLoop.mk targetScraperImpl ts jitterSeed store ctx stopped calls
          ).scraper.scrape ts (Context.WithTimeout ctx timeout)
        = ((ts.scrape (Context.WithTimeout ctx timeout)).1, some GoError.canceled) := by
      show ts.scrape (Context.WithTimeout ctx timeout) = _
      rw [← hs]
    rw [scrapeAndReport_failed _ interval timeout appendTime errc clk _ _ hs1 hready]
    refine ⟨?_, ?_, ?_⟩
    · simp only [targetScraperImpl, targetScraper.url, targetScraper.scrape, Target.URL]
      cases ts.req <;> simp only []
      · cases ts.client.newRequestErr ts.target.url <;> simp only []
        · split <;> [rfl; (split <;> rfl)]
      · split <;> [rfl; (split <;> rfl)]
    · simp [targetScraperImpl, targetScraper.report, Target.report]
    · simp [targetScraperImpl, targetScraper.report, Target.report]

/-- Witness for C10: a target scraper whose transport
honours the context, in a loop whose context is cancelled. -/
theorem cancelled_scrape_recorded_as_bad_witness :
    ((scrapeLoop.mk targetScraperImpl
        { target := NewTarget "http://foo.com", client := ctxClient, req := none,
          timeout := second }
        0 { rws := [], chSize := 0 } (Context.cancel Context.Background) false
        []).scrapeAndReport (5 * second) second 0 none
        { start := 0, atAdd := 7, atReport := 8 }).sl.sc.target.health = HealthBad :=
  ((cancelled_scrape_recorded_as_bad
    (scrapeLoop.mk targetScraperImpl
      { target := NewTarget "http://foo.com", client := ctxClient, req := none,
        timeout := second }
      0 { rws := [], chSize := 0 } (Context.cancel Context.Background) false [])
    (5 * second) second 0 none { start := 0, atAdd := 7, atReport := 8 }
    { target := NewTarget "http://foo.com", client := ctxClient, req := none,
      timeout := second }
    { target := NewTarget "http://foo.com", client := ctxClient, req := none,
      timeout := second }
    0 { rws := [], chSize := 0 } (Context.cancel Context.Background) false []
    (fun _ h => Option.noConfusion h)).2 (by decide)).2.1

/-- Counterexample for C10: a scrape that returns the cancellation error of the loop's
cancelled context leaves an outcome with health Bad in the store and the health Bad
on the target. -/
theorem cancelled_scrape_is_reported_bad :
    (targetScraper.scrape
      { target := NewTarget "http://foo.com", client := ctxClient, req := none,
        timeout := second }
      (Context.WithTimeout (Context.cancel Context.Background) second)).2
      = some GoError.canceled ∧
    ((scrapeLoop.mk targetScraperImpl
        { target := NewTarget "http://foo.com", client := ctxClient, req := none,
          timeout := second }
        0 { rws := [], chSize := 0 } (Context.cancel Context.Background) false
        []).scrapeAndReport (5 * second) second 0 none
        { start := 0, atAdd := 7, atReport := 8 }).sl.store.rws
      = [{ URL := "http://foo.com", Status := HealthBad, ResponseTime := 7 }] ∧
    ((scrapeLoop.mk targetScraperImpl
        { target := NewTarget "http://foo.com", client := ctxClient, req := none,
          timeout := second }
        0 { rws := [], chSize := 0 } (Context.cancel Context.Background) false
        []).scrapeAndReport (5 * second) second 0 none
        { start := 0, atAdd := 7, atReport := 8 }).sl.sc.target.health = HealthBad := by
  refine ⟨?_, ?_, ?_⟩ <;> decide

/-- The same through `run`: the loop is stopped while its first scrape is under way;
it returns, and the store holds an outcome with health Bad. -/
theorem run_cancelled_in_flight_records_bad :
    ((newScrapeLoop Context.Background targetScraperImpl
        { target := NewTarget "http://foo.com", client := ctxClient, req := none,
          timeout := second }
        { rws := [], chSize := 0 } 0).run (5 * second) second none 0 (some Wake.timer)
        [{ cancelled := false, cancelledInFlight := true, scrapeTime := 0,
           clk := { start := 0, atAdd := 7, atReport := 8 }, wake := Wake.done }]).status
      = RunStatus.returned ∧
    ((newScrapeLoop Context.Background targetScraperImpl
        { target := NewTarget "http://foo.com", client := ctxClient, req := none,
          timeout := second }
        { rws := [], chSize := 0 } 0).run (5 * second) second none 0 (some Wake.timer)
        [{ cancelled := false, cancelledInFlight := true, scrapeTime := 0,
           clk := { start := 0, atAdd := 7, atReport := 8 }, wake := Wake.done }]).sl.store.rws
      = [{ URL := "http://foo.com", Status := HealthBad, ResponseTime := 7 }] := by
  constructor <;> decide

/-! ## `Exporter.Collect` -/

theorem mem_iff_mapGet {κ α : Type} [DecidableEq κ] (m : List (κ × α))
    (h : (m.map Prod.fst).Nodup) (k : κ) (v : α) : (k, v) ∈ m ↔ mapGet m k = some v := by
  induction m with
  | nil => simp [mapGet]
  | cons q m ih =>
    obtain ⟨k2, v2⟩ := q
    simp only [List.map_cons, List.nodup_cons] at h
    by_cases hk : k2 = k
    · subst hk
      simp only [mapGet, if_true, Option.some.injEq, List.mem_cons, Prod.mk.injEq, true_and]
      constructor
      · intro hm
        rcases hm with hm | hm
        · exact hm.symm
        · exact absurd (List.mem_map_of_mem Prod.fst hm) h.1
      · intro hv
        exact Or.inl hv.symm
    · simp only [mapGet, if_neg hk, List.mem_cons, Prod.mk.injEq]
      rw [← ih h.2]
      constructor
      · intro hm
        rcases hm with hm | hm
        · exact absurd hm.1.symm hk
        · exact hm
      · intro hm
        exact Or.inr hm

theorem lastHealth_cons (r : TargetResponse) (es : List TargetResponse) (u : String) :
    lastHealth (r :: es) u =
      match lastHealth es u with
      | some v => some v
      | none => if r.URL = u then some r.Status else none := by
  unfold lastHealth entriesFor
  by_cases hr : r.URL = u
  · simp only [List.filter_cons, hr, decide_True, if_true, List.getLast?_cons]
    generalize (List.filter (fun r => decide (r.URL = u)) es).getLast? = x
    cases x <;> rfl
  · simp only [List.filter_cons, hr, decide_False, Bool.false_eq_true, if_false]
    generalize (List.filter (fun r => decide (r.URL = u)) es).getLast? = x
    cases x <;> rfl

theorem sumMilliseconds_eq_zero (es : List TargetResponse) (u : String)
    (h : countFor es u = 0) : sumMilliseconds es u = 0 := by
  unfold countFor at h
  unfold sumMilliseconds
  rw [List.length_eq_zero.mp h]
  rfl

/-- The gauge vector after the loop of `Collect`. -/
theorem gauge_after_entries (es : List TargetResponse) (m : Metrics) (u : String) :
    mapGet (es.foldl Metrics.observeEntry m).TargetURLStatus u =
      match lastHealth es u with
      | some v => some v
      | none => mapGet m.TargetURLStatus u := by
  induction es generalizing m with
  | nil => simp [lastHealth, entriesFor]
  | cons r es ih =>
    simp only [List.foldl_cons]
    rw [ih, lastHealth_cons]
    cases lastHealth es u with
    | some v => rfl
    | none =>
      simp only [Metrics.observeEntry, GaugeVec.set, mapGet_mapSet]
      split <;> rfl

/-! ### `float64` sums of whole numbers -/

theorem float64Shift_small (fuel n : Nat) (h : n < 2 ^ 53) : float64Shift fuel n = 0 := by
  cases fuel with
  | zero => rfl
  | succ f =>
    unfold float64Shift
    rw [if_pos h]

/-- Whole numbers up to `2 ^ 53` are `float64` values. -/
theorem roundFloat64Nat_small (n : Nat) (h : n ≤ 2 ^ 53) : roundFloat64Nat n = n := by
  rcases Nat.lt_or_eq_of_le h with h1 | h1
  · simp [roundFloat64Nat, float64Shift_small _ _ h1, Nat.mod_one]
  · subst h1; decide

theorem roundFloat64_small (x : Int) (h : x.natAbs ≤ 2 ^ 53) : roundFloat64 x = x := by
  unfold roundFloat64
  rw [roundFloat64Nat_small _ h]
  split <;> omega

/-- The first odd number above `2 ^ 53` is not a `float64` value. -/
theorem roundFloat64_not_exact : roundFloat64 (2 ^ 53 + 1) = 2 ^ 53 := by
  decide

theorem natAbs_sum_le (vs : List Int) : vs.sum.natAbs ≤ (vs.map Int.natAbs).sum := by
  induction vs with
  | nil => simp
  | cons v vs ih =>
    simp only [List.sum_cons, List.map_cons]
    omega

/-- A `float64` running sum is exact while the absolute values sum to `2 ^ 53` at
most. -/
theorem float64Sum_exact (vs : List Int) :
    ∀ s : Int, s.natAbs + (vs.map Int.natAbs).sum ≤ 2 ^ 53 → float64Sum s vs = s + vs.sum := by
  induction vs with
  | nil => intro s _; simp [float64Sum]
  | cons v vs ih =>
    intro s h
    simp only [List.map_cons, List.sum_cons] at h
    have hv : roundFloat64 v = v := roundFloat64_small v (by omega)
    have hsv : roundFloat64 (s + v) = s + v := roundFloat64_small _ (by omega)
    have := ih (s + v) (by omega)
    simp only [float64Sum, float64Add, List.foldl_cons, hv, hsv, List.sum_cons] at this ⊢
    rw [this]; ring

theorem float64Sum_nil (s : Int) : float64Sum s [] = s := rfl

theorem float64Sum_cons (s v : Int) (vs : List Int) :
    float64Sum s (v :: vs) = float64Sum (float64Add s (roundFloat64 v)) vs := rfl

theorem float64Sum_append (s : Int) (vs ws : List Int) :
    float64Sum s (vs ++ ws) = float64Sum (float64Sum s vs) ws := by
  simp only [float64Sum, List.foldl_append]

theorem millisecondsFor_eq_nil (es : List TargetResponse) (u : String)
    (h : countFor es u = 0) : millisecondsFor es u = [] := by
  unfold countFor at h
  unfold millisecondsFor
  rw [List.length_eq_zero.mp h]
  rfl

theorem sumMilliseconds_eq (es : List TargetResponse) (u : String) :
    sumMilliseconds es u = (millisecondsFor es u).sum := rfl

/-- The histogram vector after the loop of `Collect`. -/
theorem histogram_after_entries (es : List TargetResponse) (m : Metrics) (u : String) :
    mapGet (es.foldl Metrics.observeEntry m).TargetURLResponseTime u =
      if countFor es u = 0 then mapGet m.TargetURLResponseTime u
      else some
        { sampleSum :=
            float64Sum ((mapGet m.TargetURLResponseTime u).getD
              { sampleSum := 0, sampleCount := 0 }).sampleSum (millisecondsFor es u)
          sampleCount :=
            ((mapGet m.TargetURLResponseTime u).getD
              { sampleSum := 0, sampleCount := 0 }).sampleCount + countFor es u } := by
  induction es generalizing m with
  | nil => simp [countFor, entriesFor]
  | cons r es ih =>
    simp only [List.foldl_cons]
    rw [ih]
    by_cases hr : r.URL = u
    · have hc : countFor (r :: es) u = countFor es u + 1 := by
        simp [countFor, entriesFor, hr]
      have hms : millisecondsFor (r :: es) u
          = Milliseconds r.ResponseTime :: millisecondsFor es u := by
        simp [millisecondsFor, entriesFor, hr]
      have hget : mapGet (m.observeEntry r).TargetURLResponseTime u =
          some { sampleSum := float64Add ((mapGet m.TargetURLResponseTime u).getD
                    { sampleSum := 0, sampleCount := 0 }).sampleSum
                    (roundFloat64 (Milliseconds r.ResponseTime))
                 sampleCount := ((mapGet m.TargetURLResponseTime u).getD
                    { sampleSum := 0, sampleCount := 0 }).sampleCount + 1 } := by
        simp only [Metrics.observeEntry, HistogramVec.observe, mapGet_mapSet, hr, if_true]
      rw [hget, hc, hms, float64Sum_cons]
      simp only [Option.getD_some, Nat.add_one_ne_zero, if_false]
      split
      · rename_i h0
        simp [h0, millisecondsFor_eq_nil es u h0, float64Sum_nil]
      · simp only [Option.some.injEq, Histogram.mk.injEq, true_and]
        omega
    · have hc : countFor (r :: es) u = countFor es u := by
        simp [countFor, entriesFor, hr]
      have hms : millisecondsFor (r :: es) u = millisecondsFor es u := by
        simp [millisecondsFor, entriesFor, hr]
      have hget : mapGet (m.observeEntry r).TargetURLResponseTime u =
          mapGet m.TargetURLResponseTime u := by
        simp only [Metrics.observeEntry, HistogramVec.observe, mapGet_mapSet, hr, if_false]
      rw [hget, hc, hms]

theorem metrics_keys_nodup (es : List TargetResponse) (m : Metrics)
    (hg : (m.TargetURLStatus.map Prod.fst).Nodup)
    (hh : (m.TargetURLResponseTime.map Prod.fst).Nodup) :
    ((es.foldl Metrics.observeEntry m).TargetURLStatus.map Prod.fst).Nodup ∧
    ((es.foldl Metrics.observeEntry m).TargetURLResponseTime.map Prod.fst).Nodup := by
  induction es generalizing m with
  | nil => exact ⟨hg, hh⟩
  | cons r es ih =>
    simp only [List.foldl_cons]
    exact ih _ (mapSet_nodup_keys _ _ _ hg) (mapSet_nodup_keys _ _ _ hh)

theorem countFor_eq_zero_iff (es : List TargetResponse) (u : String) :
    countFor es u = 0 ↔ u ∉ es.map (fun r => r.URL) := by
  unfold countFor entriesFor
  rw [List.length_eq_zero, List.filter_eq_nil_iff]
  simp only [decide_eq_true_eq, List.mem_map, not_exists, not_and]

theorem lastHealth_isSome_of_mem (es : List TargetResponse) (u : String)
    (h : u ∈ es.map (fun r => r.URL)) : ∃ v, lastHealth es u = some v := by
  have hne : entriesFor es u ≠ [] := by
    intro hnil
    have := (countFor_eq_zero_iff es u).mp (by unfold countFor; rw [hnil]; rfl)
    exact this h
  unfold lastHealth
  cases hl : (entriesFor es u).getLast? with
  | none => exact absurd (List.getLast?_eq_none_iff.mp hl) hne
  | some r => exact ⟨r.Status, rfl⟩

theorem Collect_out (e : Exporter) :
    (Exporter.Collect e).2 =
      (e.entries.foldl Metrics.observeEntry e.metrics).TargetURLStatus.map
          (fun p => Metric.gauge p.1 p.2)
        ++ (e.entries.foldl Metrics.observeEntry e.metrics).TargetURLResponseTime.map
          (fun p => Metric.histogram p.1 p.2) := rfl

theorem gauge_mem_out (g : GaugeVec) (h : HistogramVec) (u : String) (v : Int) :
    Metric.gauge u v ∈ g.map (fun p => Metric.gauge p.1 p.2)
        ++ h.map (fun p => Metric.histogram p.1 p.2) ↔ (u, v) ∈ g := by
  rw [List.mem_append]
  constructor
  · intro hm
    rcases hm with hm | hm
    · obtain ⟨p, hp, hpe⟩ := List.mem_map.mp hm
      simp only [Metric.gauge.injEq] at hpe
      have : p = (u, v) := Prod.ext hpe.1 hpe.2
      rw [← this]; exact hp
    · obtain ⟨p, _, hpe⟩ := List.mem_map.mp hm
      exact Metric.noConfusion hpe
  · intro hm
    exact Or.inl (List.mem_map.mpr ⟨(u, v), hm, rfl⟩)

theorem histogram_mem_out (g : GaugeVec) (h : HistogramVec) (u : String) (x : Histogram) :
    Metric.histogram u x ∈ g.map (fun p => Metric.gauge p.1 p.2)
        ++ h.map (fun p => Metric.histogram p.1 p.2) ↔ (u, x) ∈ h := by
  rw [List.mem_append]
  constructor
  · intro hm
    rcases hm with hm | hm
    · obtain ⟨p, _, hpe⟩ := List.mem_map.mp hm
      exact Metric.noConfusion hpe
    · obtain ⟨p, hp, hpe⟩ := List.mem_map.mp hm
      simp only [Metric.histogram.injEq] at hpe
      have : p = (u, x) := Prod.ext hpe.1 hpe.2
      rw [← this]; exact hp
  · intro hm
    exact Or.inr (List.mem_map.mpr ⟨(u, x), hm, rfl⟩)

theorem out_nodup (g : GaugeVec) (h : HistogramVec) (hg : (g.map Prod.fst).Nodup)
    (hh : (h.map Prod.fst).Nodup) :
    (g.map (fun p => Metric.gauge p.1 p.2)
      ++ h.map (fun p => Metric.histogram p.1 p.2)).Nodup := by
  rw [List.nodup_append]
  refine ⟨?_, ?_, ?_⟩
  · refine List.Nodup.map ?_ (List.Nodup.of_map Prod.fst hg)
    intro a b hab
    simp only [Metric.gauge.injEq] at hab
    exact Prod.ext hab.1 hab.2
  · refine List.Nodup.map ?_ (List.Nodup.of_map Prod.fst hh)
    intro a b hab
    simp only [Metric.histogram.injEq] at hab
    exact Prod.ext hab.1 hab.2
  · intro x hx hx2
    obtain ⟨a, _, ha⟩ := List.mem_map.mp hx
    obtain ⟨b, _, hb⟩ := List.mem_map.mp hx2
    rw [← ha] at hb
    exact Metric.noConfusion hb

/-- The histograms that `Collect` sends for an exporter with fresh metrics. -/
theorem Collect_histogram_mem (es : List TargetResponse) (u : String) (x : Histogram) :
    Metric.histogram u x ∈ (Exporter.Collect { metrics := NewMetrics, entries := es }).2
      ↔ (u ∈ es.map (fun r => r.URL) ∧
          x = { sampleSum := float64Sum 0 (millisecondsFor es u)
                sampleCount := countFor es u }) := by
  have hk := metrics_keys_nodup es NewMetrics List.nodup_nil List.nodup_nil
  rw [Collect_out, histogram_mem_out, mem_iff_mapGet _ hk.2, histogram_after_entries]
  have hmem := countFor_eq_zero_iff es u
  by_cases hc : countFor es u = 0
  · have hnot := hmem.mp hc
    simp only [if_pos hc, NewMetrics, mapGet]
    constructor
    · intro hx; exact Option.noConfusion hx
    · intro hx; exact absurd hx.1 hnot
  · have hin : u ∈ es.map (fun r => r.URL) := by
      by_contra hnot
      exact hc (hmem.mpr hnot)
    simp only [if_neg hc, NewMetrics, mapGet, Option.getD_none, zero_add,
      Option.some.injEq]
    constructor
    · intro hx; exact ⟨hin, hx.symm⟩
    · intro hx; exact hx.2.symm

/-- The gauges that `Collect` sends for an exporter with fresh metrics. -/
theorem Collect_gauge_mem (es : List TargetResponse) (u : String) (v : Int) :
    Metric.gauge u v ∈ (Exporter.Collect { metrics := NewMetrics, entries := es }).2
      ↔ lastHealth es u = some v := by
  have hk := metrics_keys_nodup es NewMetrics List.nodup_nil List.nodup_nil
  rw [Collect_out, gauge_mem_out, mem_iff_mapGet _ hk.1, gauge_after_entries]
  cases lastHealth es u with
  | none => simp [NewMetrics, mapGet]
  | some w => simp

/-- C8 (as amended): an exporter with fresh metrics holding the entries `es`, after
one call of `Collect`, has sent on the channel: a gauge labelled `u` with value `v`
exactly when `v` is the health of the last entry of `es` for the URL string `u`; a
histogram labelled `u` exactly when `es` has an entry for `u`, and then with the
number of the entries for `u` as its sample count and, as its sample sum, the
`float64` running sum of their response times in whole milliseconds, which is their
exact sum whenever the absolute values of those milliseconds sum to `2 ^ 53` at most;
nothing twice. Every URL of `es` has a last health, hence a gauge. The numeric health
is -1 for Unknown, 1 for Good, 0 for Bad. For the single entry
`{https://foo.com, Good, 2s}` the gauge is 1, the sample sum 2000 and the sample
count 1. -/
theorem Collect_fresh_metrics (es : List TargetResponse) :
    (∀ (u : String) (v : Int),
      Metric.gauge u v ∈ (Exporter.Collect { metrics := NewMetrics, entries := es }).2
        ↔ lastHealth es u = some v) ∧
    (∀ (u : String) (x : Histogram),
      Metric.histogram u x ∈ (Exporter.Collect { metrics := NewMetrics, entries := es }).2
        ↔ (u ∈ es.map (fun r => r.URL) ∧
            x = { sampleSum := float64Sum 0 (millisecondsFor es u)
                  sampleCount := countFor es u })) ∧
    (∀ u : String, absMilliseconds es u ≤ 2 ^ 53 →
      float64Sum 0 (millisecondsFor es u) = sumMilliseconds es u) ∧
    (Exporter.Collect { metrics := NewMetrics, entries := es }).2.Nodup ∧
    (∀ u : String, u ∈ es.map (fun r => r.URL) ↔ ∃ v, lastHealth es u = some v) ∧
    (HealthUnknown = -1 ∧ HealthGood = 1 ∧ HealthBad = 0) ∧
    (Exporter.Collect
        { metrics := NewMetrics
          entries := [{ URL := "https://foo.com", Status := HealthGood,
                        ResponseTime := 2 * second }] }).2
      = [Metric.gauge "https://foo.com" 1,
         Metric.histogram "https://foo.com" { sampleSum := 2000, sampleCount := 1 }] := by
  have hk := metrics_keys_nodup es NewMetrics List.nodup_nil List.nodup_nil
  refine ⟨Collect_gauge_mem es, Collect_histogram_mem es, ?_, ?_, ?_, ⟨rfl, rfl, rfl⟩,
    by decide⟩
  · intro u hb
    rw [float64Sum_exact _ 0 (by simpa [absMilliseconds] using hb), sumMilliseconds_eq]
    simp
  · rw [Collect_out]
    exact out_nodup _ _ hk.1 hk.2
  · intro u
    constructor
    · exact lastHealth_isSome_of_mem es u
    · rintro ⟨v, hv⟩
      by_contra hnot
      have h0 := (countFor_eq_zero_iff es u).mpr hnot
      unfold countFor at h0
      unfold lastHealth at hv
      rw [List.length_eq_zero.mp h0] at hv
      simp at hv

/-- Witness for C8: three entries for two URLs; the sample sum for `http://a.com` is
the exact sum 1 + 3 of its milliseconds. -/
theorem Collect_fresh_metrics_witness :
    float64Sum 0 (millisecondsFor
        [⟨"http://a.com", HealthGood, 1 * millisecond⟩,
         ⟨"http://b.com", HealthBad, 2 * millisecond⟩,
         ⟨"http://a.com", HealthBad, 3 * millisecond⟩] "http://a.com") = 4 ∧
    Metric.histogram "http://a.com" { sampleSum := 4, sampleCount := 2 } ∈
      (Exporter.Collect
        { metrics := NewMetrics
          entries := [⟨"http://a.com", HealthGood, 1 * millisecond⟩,
                      ⟨"http://b.com", HealthBad, 2 * millisecond⟩,
                      ⟨"http://a.com", HealthBad, 3 * millisecond⟩] }).2 ∧
    Metric.gauge "http://a.com" 0 ∈
      (Exporter.Collect
        { metrics := NewMetrics
          entries := [⟨"http://a.com", HealthGood, 1 * millisecond⟩,
                      ⟨"http://b.com", HealthBad, 2 * millisecond⟩,
                      ⟨"http://a.com", HealthBad, 3 * millisecond⟩] }).2 :=
  have h := Collect_fresh_metrics
    [⟨"http://a.com", HealthGood, 1 * millisecond⟩,
     ⟨"http://b.com", HealthBad, 2 * millisecond⟩,
     ⟨"http://a.com", HealthBad, 3 * millisecond⟩]
  ⟨(h.2.2.1 "http://a.com" (by decide)).trans (by decide),
    (h.2.1 "http://a.com" _).mpr ⟨by decide, by decide⟩,
    (h.1 "http://a.com" 0).mpr (by decide)⟩

theorem entriesFor_replicate (n : Nat) (r : TargetResponse) :
    entriesFor (List.replicate n r) r.URL = List.replicate n r := by
  unfold entriesFor
  rw [List.filter_eq_self]
  intro a ha
  rw [List.eq_of_mem_replicate ha]
  simp

/-- Counterexample for C8: 977 entries for one URL, each with a response time of
9223372036853 ms (a `time.Duration` below the largest one). The exact sum of the
milliseconds, 9011234480005381, is odd and above `2 ^ 53`, so no `float64` holds it:
the histogram's sample sum is 9011234480005380. -/
theorem Collect_sample_sum_rounds :
    Metric.histogram "https://foo.com"
        { sampleSum := 9011234480005380, sampleCount := 977 } ∈
      (Exporter.Collect
        { metrics := NewMetrics
          entries := List.replicate 977
            { URL := "https://foo.com", Status := HealthGood,
              ResponseTime := 9223372036853000000 } }).2 ∧
    sumMilliseconds
        (List.replicate 977
          { URL := "https://foo.com", Status := HealthGood,
            ResponseTime := 9223372036853000000 }) "https://foo.com"
      = 9011234480005381 := by
  have he := entriesFor_replicate 977
    { URL := "https://foo.com", Status := HealthGood, ResponseTime := 9223372036853000000 }
  have hms : millisecondsFor
      (List.replicate 977
        { URL := "https://foo.com", Status := HealthGood,
          ResponseTime := 9223372036853000000 }) "https://foo.com"
      = List.replicate 976 9223372036853 ++ [9223372036853] := by
    unfold millisecondsFor
    rw [he, List.map_replicate, ← List.replicate_succ']
    rfl
  constructor
  · rw [Collect_histogram_mem]
    refine ⟨List.mem_map.mpr ⟨_, List.mem_replicate.mpr ⟨by decide, rfl⟩, rfl⟩, ?_⟩
    have hc : countFor
        (List.replicate 977
          { URL := "https://foo.com", Status := HealthGood,
            ResponseTime := 9223372036853000000 }) "https://foo.com" = 977 := by
      unfold countFor
      rw [he, List.length_replicate]
    rw [hc, hms, float64Sum_append,
      float64Sum_exact _ 0 (by rw [List.map_replicate, List.sum_replicate]; decide),
      List.sum_replicate]
    decide
  · rw [sumMilliseconds_eq, hms, List.sum_append, List.sum_replicate]
    decide

/-! ## `Start` on a pool that already holds loops -/

theorem mem_keys_mapSet {κ α : Type} [DecidableEq κ] (m : List (κ × α)) (k k1 : κ) (v : α) :
    k1 ∈ (mapSet m k v).map Prod.fst ↔ k1 = k ∨ k1 ∈ m.map Prod.fst := by
  by_cases hk : k ∈ m.map Prod.fst
  · rw [mapSet_keys_of_mem m k v hk]
    constructor
    · intro h; exact Or.inr h
    · intro h
      rcases h with h | h
      · rw [h]; exact hk
      · exact h
  · rw [mapSet_of_not_mem m k v hk, List.map_append, List.mem_append]
    simp only [List.map_cons, List.map_nil, List.mem_singleton]
    exact Or.comm

/-- One pass of the first loop of `Start`, for any constructor: the entry under the
target's hash is set to what the constructor returned, which is nil or an object
allocated by this pass. -/
theorem ScrapePool.register_spec (sp : ScrapePool) (timeout : Duration) (t : Target) :
    ∃ ref : LoopRef,
      (sp.register timeout t).loops = mapSet sp.loops t.hash ref ∧
      (sp.register timeout t).events = sp.events ++ [PoolEvent.newLoop t.URL t.hash ref] ∧
      sp.objects.length ≤ (sp.register timeout t).objects.length ∧
      (∀ l, ref = some l →
        sp.objects.length ≤ l ∧ l < (sp.register timeout t).objects.length) := by
  simp only [ScrapePool.register]
  split
  · refine ⟨none, rfl, rfl, Nat.le_refl _, ?_⟩
    intro l hl
    exact Option.noConfusion hl
  · refine ⟨some sp.objects.length, rfl, rfl, by simp, ?_⟩
    intro l hl
    simp only [Option.some.injEq] at hl
    simp only [List.length_append, List.length_singleton]
    omega

theorem ScrapePool.foldl_register_objects (timeout : Duration) (targets : List Target) :
    ∀ sp : ScrapePool,
      sp.objects.length ≤ (targets.foldl (fun p t => p.register timeout t) sp).objects.length := by
  induction targets with
  | nil => intro sp; exact Nat.le_refl _
  | cons t ts ih =>
    intro sp
    simp only [List.foldl_cons]
    obtain ⟨_, _, _, hle, _⟩ := ScrapePool.register_spec sp timeout t
    exact Nat.le_trans hle (ih _)

theorem ScrapePool.foldl_register_keys (timeout : Duration) (targets : List Target) :
    ∀ (sp : ScrapePool) (h : Nat),
      h ∈ (targets.foldl (fun p t => p.register timeout t) sp).loops.map Prod.fst ↔
        h ∈ sp.loops.map Prod.fst ∨ h ∈ targets.map Target.hash := by
  induction targets with
  | nil => intro sp h; simp
  | cons t ts ih =>
    intro sp h
    simp only [List.foldl_cons]
    obtain ⟨ref, hl, _⟩ := ScrapePool.register_spec sp timeout t
    rw [ih, hl, mem_keys_mapSet]
    simp only [List.map_cons, List.mem_cons]
    constructor
    · rintro ((h1 | h1) | h1)
      · exact Or.inr (Or.inl h1)
      · exact Or.inl h1
      · exact Or.inr (Or.inr h1)
    · rintro (h1 | h1 | h1)
      · exact Or.inl (Or.inr h1)
      · exact Or.inl (Or.inl h1)
      · exact Or.inr h1

theorem ScrapePool.foldl_register_nodup (timeout : Duration) (targets : List Target) :
    ∀ sp : ScrapePool, (sp.loops.map Prod.fst).Nodup →
      ((targets.foldl (fun p t => p.register timeout t) sp).loops.map Prod.fst).Nodup := by
  induction targets with
  | nil => intro sp h; exact h
  | cons t ts ih =>
    intro sp h
    simp only [List.foldl_cons]
    obtain ⟨ref, hl, _⟩ := ScrapePool.register_spec sp timeout t
    apply ih
    rw [hl]
    exact mapSet_nodup_keys _ _ _ h

/-- Entries under hashes that are not hashes of the targets are left as they were. -/
theorem ScrapePool.foldl_register_other (timeout : Duration) (targets : List Target) :
    ∀ (sp : ScrapePool) (h : Nat), h ∉ targets.map Target.hash →
      mapGet (targets.foldl (fun p t => p.register timeout t) sp).loops h
        = mapGet sp.loops h := by
  induction targets with
  | nil => intro sp h _; rfl
  | cons t ts ih =>
    intro sp h hh
    simp only [List.map_cons, List.mem_cons, not_or] at hh
    simp only [List.foldl_cons]
    obtain ⟨ref, hl, _⟩ := ScrapePool.register_spec sp timeout t
    rw [ih _ h hh.2, hl, mapGet_mapSet, if_neg (Ne.symm hh.1)]

/-- The entry under the hash of a target of the list is nil or an object allocated
by this pass over the list. -/
theorem ScrapePool.foldl_register_target (timeout : Duration) (targets : List Target) :
    ∀ (sp : ScrapePool) (t : Target), t ∈ targets →
      ∃ ref : LoopRef,
        mapGet (targets.foldl (fun p t => p.register timeout t) sp).loops t.hash = some ref ∧
        ∀ l, ref = some l → sp.objects.length ≤ l ∧
          l < (targets.foldl (fun p t => p.register timeout t) sp).objects.length := by
  induction targets with
  | nil => intro sp t ht; exact absurd ht (List.not_mem_nil _)
  | cons t0 ts ih =>
    intro sp t ht
    simp only [List.foldl_cons]
    obtain ⟨ref0, hl0, _, hle0, hnew0⟩ := ScrapePool.register_spec sp timeout t0
    by_cases hlater : t.hash ∈ ts.map Target.hash
    · obtain ⟨t1, ht1, hh1⟩ := List.mem_map.mp hlater
      obtain ⟨ref, hget, hnew⟩ := ih (sp.register timeout t0) t1 ht1
      refine ⟨ref, by rw [← hh1]; exact hget, ?_⟩
      intro l hl
      obtain ⟨h1, h2⟩ := hnew l hl
      exact ⟨Nat.le_trans hle0 h1, h2⟩
    · have htt : t = t0 := by
        rcases List.mem_cons.mp ht with h | h
        · exact h
        · exact absurd (List.mem_map_of_mem Target.hash h) hlater
      refine ⟨ref0, ?_, ?_⟩
      · rw [ScrapePool.foldl_register_other timeout ts _ t.hash hlater, hl0, mapGet_mapSet,
          htt, if_pos rfl]
      · intro l hl
        obtain ⟨h1, h2⟩ := hnew0 l hl
        exact ⟨h1, Nat.lt_of_lt_of_le h2
          (ScrapePool.foldl_register_objects timeout ts (sp.register timeout t0))⟩

/-- The first loop of `Start` logs constructor calls only. -/
theorem ScrapePool.foldl_register_events (timeout : Duration) (targets : List Target) :
    ∀ sp : ScrapePool, ∃ E : List PoolEvent,
      (targets.foldl (fun p t => p.register timeout t) sp).events = sp.events ++ E ∧
      ∀ e ∈ E, ∃ u h r, e = PoolEvent.newLoop u h r := by
  induction targets with
  | nil => intro sp; exact ⟨[], by simp, fun e he => absurd he (List.not_mem_nil _)⟩
  | cons t ts ih =>
    intro sp
    simp only [List.foldl_cons]
    obtain ⟨ref, _, he, _⟩ := ScrapePool.register_spec sp timeout t
    obtain ⟨E, hE, hall⟩ := ih (sp.register timeout t)
    refine ⟨PoolEvent.newLoop t.URL t.hash ref :: E, ?_, ?_⟩
    · rw [hE, he, List.append_assoc]; rfl
    · intro e hmem
      rcases List.mem_cons.mp hmem with h | h
      · exact ⟨_, _, _, h⟩
      · exact hall e h

theorem mem_runEvents (loops : List (Nat × LoopRef)) (interval timeout : Duration)
    (l : Nat) (i t : Duration) (errc : Option ErrChan) :
    PoolEvent.run l i t errc ∈ runEvents loops interval timeout ↔
      (∃ k, (k, some l) ∈ loops) ∧ i = interval ∧ t = timeout ∧ errc = none := by
  unfold runEvents
  rw [List.mem_filterMap]
  constructor
  · rintro ⟨⟨k, ref⟩, hp, hpe⟩
    cases ref with
    | none => simp at hpe
    | some l1 =>
      simp only [Option.map_some', Option.some.injEq, PoolEvent.run.injEq] at hpe
      obtain ⟨h1, h2, h3, h4⟩ := hpe
      exact ⟨⟨k, by rw [← h1]; exact hp⟩, h2.symm, h3.symm, h4.symm⟩
  · rintro ⟨⟨k, hk⟩, h2, h3, h4⟩
    exact ⟨(k, some l), hk, by simp [h2, h3, h4]⟩

/-- One pass of the first loop of `Start`, by what the constructor returns: nil is
stored as nil and no object is kept; a loop is kept as a new object and stored under
the target's hash. -/
theorem ScrapePool.register_construct (sp : ScrapePool) (timeout : Duration) (t : Target) :
    (sp.register timeout t).ctx = sp.ctx ∧
    (sp.register timeout t).store = sp.store ∧
    (sp.register timeout t).config = sp.config ∧
    (sp.register timeout t).client = sp.client ∧
    (sp.register timeout t).newLoop = sp.newLoop ∧
    ∃ ref : LoopRef,
      (sp.register timeout t).loops = mapSet sp.loops t.hash ref ∧
      (sp.register timeout t).events = sp.events ++ [PoolEvent.newLoop t.URL t.hash ref] ∧
      (sp.construct timeout t = none →
        ref = none ∧ (sp.register timeout t).objects = sp.objects) ∧
      (∀ obj, sp.construct timeout t = some obj →
        ref = some sp.objects.length ∧
        (sp.register timeout t).objects = sp.objects ++ [obj]) := by
  simp only [ScrapePool.register, ScrapePool.construct]
  split
  · rename_i hnone
    refine ⟨rfl, rfl, rfl, rfl, rfl, none, rfl, rfl, fun _ => ⟨rfl, rfl⟩, ?_⟩
    intro obj hobj
    rw [hnone] at hobj
    exact Option.noConfusion hobj
  · rename_i obj0 hsome
    refine ⟨rfl, rfl, rfl, rfl, rfl, some sp.objects.length, rfl, rfl, ?_, ?_⟩
    · intro hnone
      rw [hsome] at hnone
      exact Option.noConfusion hnone
    · intro obj hobj
      rw [hsome] at hobj
      simp only [Option.some.injEq] at hobj
      rw [hobj]
      exact ⟨rfl, rfl⟩

/-- The first loop of `Start` leaves alone what the constructor reads, and only adds
to the objects. -/
theorem ScrapePool.foldl_register_frame (timeout : Duration) (targets : List Target) :
    ∀ sp : ScrapePool,
      (∀ t, (targets.foldl (fun p t => p.register timeout t) sp).construct timeout t
        = sp.construct timeout t) ∧
      ∃ extra, (targets.foldl (fun p t => p.register timeout t) sp).objects
        = sp.objects ++ extra := by
  induction targets with
  | nil => intro sp; exact ⟨fun _ => rfl, [], by simp⟩
  | cons t0 ts ih =>
    intro sp
    simp only [List.foldl_cons]
    obtain ⟨h1, h2, h3, h4, h5, ref, _, _, hnone, hsome⟩ :=
      ScrapePool.register_construct sp timeout t0
    obtain ⟨hc, extra, hextra⟩ := ih (sp.register timeout t0)
    constructor
    · intro t
      rw [hc t]
      simp only [ScrapePool.construct, h1, h2, h3, h4, h5]
    · cases hcon : sp.construct timeout t0 with
      | none =>
        refine ⟨extra, ?_⟩
        rw [hextra, (hnone hcon).2]
      | some obj =>
        refine ⟨[obj] ++ extra, ?_⟩
        rw [hextra, (hsome obj hcon).2, List.append_assoc]

/-- The entry that the first loop of `Start` leaves under the hash of a target `t1`
after which no target of the list has the same hash: it is what the constructor
returned for `t1`. -/
theorem ScrapePool.foldl_register_last (timeout : Duration) (pre post : List Target)
    (t1 : Target) (sp : ScrapePool) (hpost : t1.hash ∉ post.map Target.hash) :
    ∃ (ref : LoopRef) (Ea Eb : List PoolEvent),
      mapGet ((pre ++ t1 :: post).foldl (fun p t => p.register timeout t) sp).loops t1.hash
        = some ref ∧
      ((pre ++ t1 :: post).foldl (fun p t => p.register timeout t) sp).events
        = sp.events ++ (Ea ++ PoolEvent.newLoop t1.URL t1.hash ref :: Eb) ∧
      (sp.construct timeout t1 = none → ref = none) ∧
      (∀ obj, sp.construct timeout t1 = some obj →
        ∃ l, ref = some l ∧ sp.objects.length ≤ l ∧
          ((pre ++ t1 :: post).foldl (fun p t => p.register timeout t) sp).objects[l]?
            = some obj) := by
  rw [List.foldl_append, List.foldl_cons]
  obtain ⟨hcA, extraA, hextraA⟩ := ScrapePool.foldl_register_frame timeout pre sp
  obtain ⟨Ea, hEa, _⟩ := ScrapePool.foldl_register_events timeout pre sp
  generalize pre.foldl (fun p t => p.register timeout t) sp = spA at hcA hextraA hEa
  obtain ⟨_, _, _, _, _, ref, hloops, hev, hnone, hsome⟩ :=
    ScrapePool.register_construct spA timeout t1
  obtain ⟨_, extraB, hextraB⟩ :=
    ScrapePool.foldl_register_frame timeout post (spA.register timeout t1)
  obtain ⟨Eb, hEb, _⟩ :=
    ScrapePool.foldl_register_events timeout post (spA.register timeout t1)
  refine ⟨ref, Ea, Eb, ?_, ?_, ?_, ?_⟩
  · rw [ScrapePool.foldl_register_other timeout post _ t1.hash hpost, hloops, mapGet_mapSet,
      if_pos rfl]
  · rw [hEb, hev, hEa]
    simp only [List.append_assoc, List.singleton_append]
  · intro hcon
    exact (hnone (by rw [hcA t1]; exact hcon)).1
  · intro obj hcon
    obtain ⟨href, hobjs⟩ := hsome obj (by rw [hcA t1]; exact hcon)
    refine ⟨spA.objects.length, href, by rw [hextraA]; simp, ?_⟩
    rw [hextraB, hobjs,
      List.getElem?_append_left (by simp),
      List.getElem?_concat_length]

/-- Among the targets of a list with a given hash there is a last one. -/
theorem exists_last_with_hash (targets : List Target) :
    ∀ t ∈ targets, ∃ (pre : List Target) (t1 : Target) (post : List Target),
      targets = pre ++ t1 :: post ∧ t1.hash = t.hash ∧ t.hash ∉ post.map Target.hash := by
  induction targets with
  | nil => intro t ht; exact absurd ht (List.not_mem_nil _)
  | cons t0 ts ih =>
    intro t ht
    by_cases hlater : t.hash ∈ ts.map Target.hash
    · obtain ⟨t2, ht2, hh2⟩ := List.mem_map.mp hlater
      obtain ⟨pre, t1, post, hsplit, hh1, hpost⟩ := ih t2 ht2
      refine ⟨t0 :: pre, t1, post, by rw [hsplit]; rfl, by rw [hh1, hh2], ?_⟩
      rw [← hh2]
      exact hpost
    · have htt : t = t0 := by
        rcases List.mem_cons.mp ht with h | h
        · exact h
        · exact absurd (List.mem_map_of_mem Target.hash h) hlater
      exact ⟨[], t0, ts, rfl, by rw [htt], hlater⟩

/-- The first loop of `Start` calls the constructor once for each target, in the
order of the list. -/
theorem ScrapePool.foldl_register_calls (timeout : Duration) (targets : List Target) :
    ∀ sp : ScrapePool, ∃ refs : List LoopRef,
      refs.length = targets.length ∧
      (targets.foldl (fun p t => p.register timeout t) sp).events =
        sp.events ++
          List.zipWith (fun t r => PoolEvent.newLoop t.URL t.hash r) targets refs := by
  induction targets with
  | nil => intro sp; exact ⟨[], rfl, by simp⟩
  | cons t ts ih =>
    intro sp
    simp only [List.foldl_cons]
    obtain ⟨_, _, _, _, _, ref, _, hev, _⟩ := ScrapePool.register_construct sp timeout t
    obtain ⟨refs, hlen, hE⟩ := ih (sp.register timeout t)
    refine ⟨ref :: refs, by simp [hlen], ?_⟩
    rw [hE, hev, List.append_assoc]
    rfl

/-- C11 (as amended): `Start` adds to the loop map and does not clear it. For every
pool state with a positive interval (the loop map having one entry for a hash at
most, as a map has) and every list of targets, `Start(targets)` returns, and
afterwards the set of keys of the loop map is the set of keys it had before together
with the hashes of the targets; entries under other hashes are as they were and the
loop objects built before are untouched. `Start` calls `newLoop` once for each
target, in the order of the list, and then makes `run` calls only, each with the
configured interval and timeout. Under the hash of every target `t` of the list the
map holds what `newLoop` returned for the last target `t1` of the list with that hash:
nil when it returned nil, and otherwise a reference to a loop object created by this
call that is the loop `newLoop` returned, and on this loop `run` is invoked with the
configured interval and timeout. On a pool whose loop map was empty the keys are
exactly the hashes of the targets, and `run` is invoked only on loops created by that
call. -/
theorem Start_adds_to_loop_map (sp : ScrapePool) (targets : List Target)
    (hI : 0 < sp.config.ScrapeInterval) (hk : (sp.loops.map Prod.fst).Nodup) :
    ∃ (sp1 : ScrapePool) (E R : List PoolEvent) (refs : List LoopRef)
      (extra : List (scrapeLoop targetScraper)),
      sp.Start targets = some sp1 ∧
      sp1.events = sp.events ++ E ∧
      refs.length = targets.length ∧
      E = List.zipWith (fun t r => PoolEvent.newLoop t.URL t.hash r) targets refs ++ R ∧
      (∀ e ∈ R, ∃ l,
        e = PoolEvent.run l sp.config.ScrapeInterval sp.config.ScrapeTimeout none) ∧
      sp1.objects = sp.objects ++ extra ∧
      (∀ h : Nat, h ∈ sp1.loops.map Prod.fst ↔
        h ∈ sp.loops.map Prod.fst ∨ h ∈ targets.map Target.hash) ∧
      (∀ h : Nat, h ∉ targets.map Target.hash → mapGet sp1.loops h = mapGet sp.loops h) ∧
      (sp1.loops.map Prod.fst).Nodup ∧
      (∀ t ∈ targets, ∃ ref : LoopRef, mapGet sp1.loops t.hash = some ref ∧
        ∀ l, ref = some l →
          sp.objects.length ≤ l ∧ l < sp1.objects.length ∧
          PoolEvent.run l sp.config.ScrapeInterval sp.config.ScrapeTimeout none ∈ E) ∧
      (∀ t ∈ targets, ∃ (pre : List Target) (t1 : Target) (post : List Target)
          (ref : LoopRef),
        targets = pre ++ t1 :: post ∧ t1.hash = t.hash ∧ t.hash ∉ post.map Target.hash ∧
        mapGet sp1.loops t.hash = some ref ∧
        PoolEvent.newLoop t1.URL t1.hash ref ∈ E ∧
        (sp.construct sp.config.ScrapeTimeout t1 = none → ref = none) ∧
        (∀ obj, sp.construct sp.config.ScrapeTimeout t1 = some obj →
          ∃ l, ref = some l ∧ sp.objects.length ≤ l ∧ sp1.objects[l]? = some obj ∧
            PoolEvent.run l sp.config.ScrapeInterval sp.config.ScrapeTimeout none ∈ E)) ∧
      (sp.loops = [] →
        (∀ h : Nat, h ∈ sp1.loops.map Prod.fst ↔ h ∈ targets.map Target.hash) ∧
        ∀ (l : Nat) (i t : Duration) (errc : Option ErrChan),
          PoolEvent.run l i t errc ∈ E → sp.objects.length ≤ l ∧ l < sp1.objects.length) := by
  obtain ⟨E0, hE0, hE0new⟩ :=
    ScrapePool.foldl_register_events sp.config.ScrapeTimeout targets sp
  obtain ⟨refs, hlen, hcalls⟩ :=
    ScrapePool.foldl_register_calls sp.config.ScrapeTimeout targets sp
  obtain ⟨_, extra, hextra⟩ :=
    ScrapePool.foldl_register_frame sp.config.ScrapeTimeout targets sp
  have hE0eq : E0 =
      List.zipWith (fun t r => PoolEvent.newLoop t.URL t.hash r) targets refs :=
    List.append_cancel_left (hE0.symm.trans hcalls)
  have hkeys := ScrapePool.foldl_register_keys sp.config.ScrapeTimeout targets sp
  have hnodup := ScrapePool.foldl_register_nodup sp.config.ScrapeTimeout targets sp hk
  have htarget := ScrapePool.foldl_register_target sp.config.ScrapeTimeout targets sp
  have hrun : ∀ (k l : Nat),
      mapGet (targets.foldl (fun p t => p.register sp.config.ScrapeTimeout t) sp).loops k
        = some (some l) →
      PoolEvent.run l sp.config.ScrapeInterval sp.config.ScrapeTimeout none ∈
        E0 ++ runEvents
          (targets.foldl (fun p t => p.register sp.config.ScrapeTimeout t) sp).loops
          sp.config.ScrapeInterval sp.config.ScrapeTimeout := by
    intro k l hget
    refine List.mem_append.mpr (Or.inr ?_)
    rw [mem_runEvents]
    exact ⟨⟨k, mem_of_mapGet _ _ _ hget⟩, rfl, rfl, rfl⟩
  refine ⟨_, E0 ++ runEvents
      (targets.foldl (fun p t => p.register sp.config.ScrapeTimeout t) sp).loops
      sp.config.ScrapeInterval sp.config.ScrapeTimeout,
    runEvents (targets.foldl (fun p t => p.register sp.config.ScrapeTimeout t) sp).loops
      sp.config.ScrapeInterval sp.config.ScrapeTimeout, refs, extra,
    ScrapePool.Start_eq sp targets hI, ?_, hlen, by rw [hE0eq], ?_, hextra, hkeys,
    ScrapePool.foldl_register_other sp.config.ScrapeTimeout targets sp, hnodup, ?_, ?_, ?_⟩
  · simp only [hE0, List.append_assoc]
  · intro e he
    unfold runEvents at he
    obtain ⟨⟨k, ref⟩, _, hpe⟩ := List.mem_filterMap.mp he
    cases ref with
    | none => simp at hpe
    | some l => exact ⟨l, by simpa using hpe.symm⟩
  · intro t ht
    obtain ⟨ref, hget, hnew⟩ := htarget t ht
    refine ⟨ref, hget, ?_⟩
    intro l hl
    obtain ⟨h1, h2⟩ := hnew l hl
    exact ⟨h1, h2, hrun t.hash l (by rw [hget, hl])⟩
  · intro t ht
    obtain ⟨pre, t1, post, hsplit, hh1, hpost⟩ := exists_last_with_hash targets t ht
    have hpost1 : t1.hash ∉ post.map Target.hash := by rw [hh1]; exact hpost
    obtain ⟨ref, Ea, Eb, hget, hev, hnone, hsome⟩ :=
      ScrapePool.foldl_register_last sp.config.ScrapeTimeout pre post t1 sp hpost1
    rw [← hsplit] at hget hev hsome
    have hmemE0 : PoolEvent.newLoop t1.URL t1.hash ref ∈ E0 := by
      have : E0 = Ea ++ PoolEvent.newLoop t1.URL t1.hash ref :: Eb :=
        List.append_cancel_left (hE0.symm.trans hev)
      rw [this]
      exact List.mem_append.mpr (Or.inr (List.mem_cons_self _ _))
    refine ⟨pre, t1, post, ref, hsplit, hh1, hpost, by rw [← hh1]; exact hget,
      List.mem_append.mpr (Or.inl hmemE0), hnone, ?_⟩
    intro obj hcon
    obtain ⟨l, hl, hle, hobj⟩ := hsome obj hcon
    exact ⟨l, hl, hle, hobj, hrun t1.hash l (by rw [hget, hl])⟩
  · intro hempty
    constructor
    · intro h
      rw [hkeys h, hempty]
      simp
    · intro l i t errc hmem
      rcases List.mem_append.mp hmem with h | h
      · obtain ⟨u, k, r, he⟩ := hE0new _ h
        exact PoolEvent.noConfusion he
      · rw [mem_runEvents] at h
        obtain ⟨⟨k, hkl⟩, _⟩ := h
        have hkin : k ∈ targets.map Target.hash := by
          have := (hkeys k).mp (List.mem_map_of_mem Prod.fst hkl)
          rw [hempty] at this
          simpa using this
        obtain ⟨t1, ht1, hh1⟩ := List.mem_map.mp hkin
        obtain ⟨ref, hget, hnew⟩ := htarget t1 ht1
        have hget2 := (mem_iff_mapGet _ hnodup k (some l)).mp hkl
        rw [← hh1, hget] at hget2
        exact hnew l (Option.some.inj hget2)

/-- Witness for C11: a second `Start`, for `http://bar.com`, on the pool that already
runs a loop for `http://foo.com`: the old key stays, and under the hash of
`http://bar.com` the map holds a loop. -/
theorem Start_adds_to_loop_map_witness :
    ∃ sp0 sp sp1 : ScrapePool,
      NewScrapePool (constClient (Except.ok { Status := "200 OK", StatusCode := 200 }))
        { ScrapeInterval := 3 * second, ScrapeTimeout := 2 * second, StoreSize := 0,
          JitterSeed := 0 } = some (sp0, none) ∧
      sp0.Start [NewTarget "http://foo.com"] = some sp ∧
      sp.Start [NewTarget "http://bar.com"] = some sp1 ∧
      (∀ h : Nat, h ∈ sp1.loops.map Prod.fst ↔
        h ∈ sp.loops.map Prod.fst ∨ h ∈ [(NewTarget "http://bar.com").hash]) ∧
      (∃ l, mapGet sp1.loops (NewTarget "http://bar.com").hash = some (some l)) ∧
      (sp1.loops, sp1.objects.length) =
        ([((NewTarget "http://foo.com").hash, some 0),
          ((NewTarget "http://bar.com").hash, some 1)], 2) := by
  obtain ⟨sp0, hnew, hinv, _, _, _, hc, _⟩ :=
    NewScrapePool_fresh (constClient (Except.ok { Status := "200 OK", StatusCode := 200 }))
      { ScrapeInterval := 3 * second, ScrapeTimeout := 2 * second, StoreSize := 0,
        JitterSeed := 0 } (by decide)
  have hI0 : 0 < sp0.config.ScrapeInterval := by rw [hc]; decide
  obtain ⟨sp, hs, hinv1, hI1⟩ : ∃ sp : ScrapePool,
      sp0.Start [NewTarget "http://foo.com"] = some sp ∧ PoolInv sp ∧
        0 < sp.config.ScrapeInterval := by
    have hs := ScrapePool.Start_eq sp0 [NewTarget "http://foo.com"] hI0
    refine ⟨_, hs, (PoolInv.Start sp0 _ _ hinv hs).1, ?_⟩
    show 0 < (sp0.register sp0.config.ScrapeTimeout
      (NewTarget "http://foo.com")).config.ScrapeInterval
    rw [ScrapePool.register_config]
    exact hI0
  obtain ⟨sp1, _, _, _, _, h1, _, _, _, _, _, h3, _, _, _, h4, _⟩ :=
    Start_adds_to_loop_map sp [NewTarget "http://bar.com"] hI1 hinv1.keys
  obtain ⟨_, t1, _, ref, _, _, _, hget, _, _, hsome⟩ :=
    h4 (NewTarget "http://bar.com") (List.mem_singleton.mpr rfl)
  cases hcon : sp.construct sp.config.ScrapeTimeout t1 with
  | none => simp [ScrapePool.construct, hinv1.ctor, defaultNewLoop] at hcon
  | some obj =>
    obtain ⟨l, hl, _⟩ := hsome obj hcon
    refine ⟨sp0, sp, sp1, hnew, hs, h1, h3, ⟨l, by rw [hget, hl]⟩, ?_⟩
    have hchain :
        ((NewScrapePool
            (constClient (Except.ok { Status := "200 OK", StatusCode := 200 }))
            { ScrapeInterval := 3 * second, ScrapeTimeout := 2 * second, StoreSize := 0,
              JitterSeed := 0 }).bind
          (fun r => (r.1.Start [NewTarget "http://foo.com"]).bind
            (fun p => (p.Start [NewTarget "http://bar.com"]).map
              (fun q => (q.loops, q.objects.length)))))
          = some ([((NewTarget "http://foo.com").hash, some 0),
                   ((NewTarget "http://bar.com").hash, some 1)], 2) := by
      decide
    rw [hnew] at hchain
    simp only [Option.some_bind, hs, h1, Option.map_some', Option.some.injEq] at hchain
    exact hchain

/-- Counterexample for C11: after `Start` for `http://foo.com` and a second `Start`
for `http://bar.com`, the loop map still has the entry for `http://foo.com`, whose
hash is not the hash of a target of the second call, and the second call invokes
`run` on loop 0, which the first call created (and had run already). -/
theorem second_Start_keeps_and_reruns :
    (NewScrapePool (constClient (Except.ok { Status := "200 OK", StatusCode := 200 }))
        { ScrapeInterval := 3 * second, ScrapeTimeout := 2 * second, StoreSize := 0,
          JitterSeed := 0 }).bind
      (fun r => (r.1.Start [NewTarget "http://foo.com"]).bind
        (fun sp => (sp.Start [NewTarget "http://bar.com"]).map
          (fun sp1 => (sp.loops, sp1.loops, sp1.events.drop sp.events.length))))
      = some
          ([((NewTarget "http://foo.com").hash, some 0)],
           [((NewTarget "http://foo.com").hash, some 0),
            ((NewTarget "http://bar.com").hash, some 1)],
           [PoolEvent.newLoop "http://bar.com" (NewTarget "http://bar.com").hash (some 1),
            PoolEvent.run 0 (3 * second) (2 * second) none,
            PoolEvent.run 1 (3 * second) (2 * second) none]) ∧
    (NewTarget "http://foo.com").hash ∉ [(NewTarget "http://bar.com").hash] := by
  constructor <;> decide

/-! ## The hand-off from the store to the exporter -/

theorem sum_flatten_replicate (n : Nat) (vs : List Int) :
    (List.flatten (List.replicate n vs)).sum = n * vs.sum := by
  induction n with
  | zero => simp
  | succ k ih => simp [List.replicate_succ, ih]; ring

theorem natAbs_sum_flatten_replicate (n : Nat) (vs : List Int) :
    ((List.flatten (List.replicate n vs)).map Int.natAbs).sum
      = n * (vs.map Int.natAbs).sum := by
  induction n with
  | zero => simp
  | succ k ih => simp [List.replicate_succ, ih]; ring

/-- One `Collect` observes every entry the exporter holds, once. -/
theorem ScrapePool.observed_Collect (sp : ScrapePool) (u : String) :
    sp.Collect.observed u =
      { sampleSum :=
          float64Sum (sp.observed u).sampleSum (millisecondsFor sp.exporter.entries u)
        sampleCount := (sp.observed u).sampleCount + countFor sp.exporter.entries u } := by
  simp only [ScrapePool.observed, ScrapePool.Collect, Exporter.Collect]
  rw [histogram_after_entries]
  by_cases hc : countFor sp.exporter.entries u = 0
  · rw [if_pos hc, hc, millisecondsFor_eq_nil _ _ hc, float64Sum_nil]
    rfl
  · rw [if_neg hc]
    rfl

/-- Steps between two drain ticks: the exporter keeps its batch, every `Collect`
observes the batch once more, every `Add` goes to the store. -/
theorem ScrapePool.handOffs_without_drain (mid : List HandOff) :
    ∀ sp : ScrapePool, HandOff.drain ∉ mid →
      ∃ sp1 : ScrapePool, sp.handOffs mid = some sp1 ∧
        sp1.exporter.entries = sp.exporter.entries ∧
        sp1.store.rws = sp.store.rws ++ addsOf mid ∧
        sp1.store.chSize = sp.store.chSize ∧
        ∀ u : String, sp1.observed u =
          { sampleSum := float64Sum (sp.observed u).sampleSum
              (List.flatten (List.replicate (mid.count HandOff.collect)
                (millisecondsFor sp.exporter.entries u)))
            sampleCount := (sp.observed u).sampleCount
              + mid.count HandOff.collect * countFor sp.exporter.entries u } := by
  induction mid with
  | nil =>
    intro sp _
    exact ⟨sp, rfl, rfl, by simp [addsOf], rfl, by intro u; simp [float64Sum_nil]⟩
  | cons op ops ih =>
    intro sp hno
    have hno1 : HandOff.drain ∉ ops := fun h => hno (List.mem_cons_of_mem _ h)
    cases op with
    | drain => exact absurd (List.mem_cons_self _ _) hno
    | add r =>
      obtain ⟨sp1, h1, h2, h3, h4, h5⟩ := ih (sp.storeAdd r) hno1
      refine ⟨sp1, ?_, h2, ?_, h4, ?_⟩
      · simp only [ScrapePool.handOffs, ScrapePool.handOff, Option.some_bind, h1]
      · rw [h3]
        simp [ScrapePool.storeAdd, Storage.Add, addsOf]
      · intro u
        rw [h5 u]
        have hcnt : (HandOff.add r :: ops).count HandOff.collect
            = ops.count HandOff.collect := by
          rw [List.count_cons_of_ne]
          intro hne
          exact HandOff.noConfusion hne
        rw [hcnt]
        rfl
    | collect =>
      obtain ⟨sp1, h1, h2, h3, h4, h5⟩ := ih sp.Collect hno1
      refine ⟨sp1, ?_, h2, h3, h4, ?_⟩
      · simp only [ScrapePool.handOffs, ScrapePool.handOff, Option.some_bind, h1]
      · intro u
        rw [h5 u, ScrapePool.observed_Collect]
        have he : sp.Collect.exporter.entries = sp.exporter.entries := rfl
        rw [he, List.count_cons_self, List.replicate_succ, List.flatten_cons,
          float64Sum_append]
        simp only [Histogram.mk.injEq, true_and]
        ring

theorem ScrapePool.drainTick_eq (sp : ScrapePool) (hS : 0 ≤ sp.store.chSize) :
    sp.drainTick =
      some { sp with
        store := { sp.store with rws := [] }
        exporter := { sp.exporter with entries := sp.store.rws } } := by
  have h0 : ¬ sp.store.chSize < 0 := not_lt.mpr hS
  simp only [ScrapePool.drainTick, Storage.Commit, if_neg h0]

/-- C12 (as amended): the hand-off from the store to the drain tick neither loses
nor duplicates entries, the hand-off from the drain tick to `Collect` does both. For
every pool state (store size not negative) and every sequence `mid` of `Add` and
`Collect` calls between two drain ticks: the first drain tick publishes exactly the
pending outcomes as the exporter's entries and empties the store; the exporter keeps
that batch until the second drain tick, and every `Collect` of `mid` observes every
entry of it once more, so that the histogram of each URL has grown by the number of
`Collect` calls in `mid` times the number of the batch's outcomes for that URL, and
its sum by their milliseconds, added in `float64` arithmetic once for each `Collect`
(exactly that many times their sum, while the absolute values stay within `2 ^ 53`):
an outcome is observed once for each `Collect` call between the drain tick that
publishes it and the next one, not at all when there is none; the second drain tick
publishes exactly the outcomes added in `mid`, in order, each once, and observes
nothing. -/
theorem handOff_between_drain_ticks (sp : ScrapePool) (mid : List HandOff)
    (hS : 0 ≤ sp.store.chSize) (hmid : HandOff.drain ∉ mid) :
    ∃ sp1 sp2 sp3 : ScrapePool,
      sp.handOff HandOff.drain = some sp1 ∧
      sp1.handOffs mid = some sp2 ∧
      sp2.handOff HandOff.drain = some sp3 ∧
      sp1.exporter.entries = sp.store.rws ∧
      sp1.store.rws = [] ∧
      sp2.exporter.entries = sp.store.rws ∧
      (∀ u : String, sp2.observed u =
        { sampleSum := float64Sum (sp.observed u).sampleSum
            (List.flatten (List.replicate (mid.count HandOff.collect)
              (millisecondsFor sp.store.rws u)))
          sampleCount := (sp.observed u).sampleCount
            + mid.count HandOff.collect * countFor sp.store.rws u }) ∧
      (∀ u : String,
        (sp.observed u).sampleSum.natAbs
            + mid.count HandOff.collect * absMilliseconds sp.store.rws u ≤ 2 ^ 53 →
        (sp2.observed u).sampleSum = (sp.observed u).sampleSum
            + (mid.count HandOff.collect : Nat) * sumMilliseconds sp.store.rws u) ∧
      sp3.exporter.entries = addsOf mid ∧
      sp3.store.rws = [] ∧
      (∀ u : String, sp3.observed u = sp2.observed u) := by
  have hd1 := ScrapePool.drainTick_eq sp hS
  obtain ⟨sp2, h1, h2, h3, h4, h5⟩ :=
    ScrapePool.handOffs_without_drain mid
      { sp with
        store := { sp.store with rws := [] }
        exporter := { sp.exporter with entries := sp.store.rws } } hmid
  have hS2 : 0 ≤ sp2.store.chSize := by rw [h4]; exact hS
  have hobs : ∀ u : String, sp2.observed u =
      { sampleSum := float64Sum (sp.observed u).sampleSum
          (List.flatten (List.replicate (mid.count HandOff.collect)
            (millisecondsFor sp.store.rws u)))
        sampleCount := (sp.observed u).sampleCount
          + mid.count HandOff.collect * countFor sp.store.rws u } := by
    intro u
    rw [h5 u]
    rfl
  refine ⟨_, sp2, _, hd1, h1, ScrapePool.drainTick_eq sp2 hS2, rfl, rfl, h2, hobs, ?_, ?_,
    rfl, ?_⟩
  · intro u hb
    rw [hobs u]
    simp only []
    rw [float64Sum_exact _ _
        (by rw [natAbs_sum_flatten_replicate]; simpa [absMilliseconds] using hb),
      sum_flatten_replicate, sumMilliseconds_eq]
  · show sp2.store.rws = addsOf mid
    rw [h3]
    rfl
  · intro u
    rfl

/-- Witness for C12: one outcome pending in the pool that `NewScrapePool` returns,
then a drain tick, two `Collect` calls and a drain tick: the outcome has been observed
twice. -/
theorem handOff_between_drain_ticks_witness :
    ∃ sp0 sp1 sp2 : ScrapePool,
      NewScrapePool (constClient (Except.ok { Status := "200 OK", StatusCode := 200 }))
        { ScrapeInterval := 3 * second, ScrapeTimeout := 2 * second, StoreSize := 10,
          JitterSeed := 0 } = some (sp0, none) ∧
      (sp0.storeAdd ⟨"http://foo.com", HealthGood, 2 * second⟩).handOff HandOff.drain
        = some sp1 ∧
      sp1.handOffs [HandOff.collect, HandOff.collect] = some sp2 ∧
      (sp2.observed "http://foo.com").sampleCount = 2 := by
  obtain ⟨sp0, hnew, _, _, _, _, _, _, hstore, hexp⟩ :=
    NewScrapePool_fresh (constClient (Except.ok { Status := "200 OK", StatusCode := 200 }))
      { ScrapeInterval := 3 * second, ScrapeTimeout := 2 * second, StoreSize := 10,
        JitterSeed := 0 } (by decide)
  obtain ⟨sp1, sp2, _, h1, h2, _, _, _, _, hobs, _⟩ :=
    handOff_between_drain_ticks
      (sp0.storeAdd ⟨"http://foo.com", HealthGood, 2 * second⟩)
      [HandOff.collect, HandOff.collect]
      (by simp [ScrapePool.storeAdd, Storage.Add, hstore]) (by decide)
  refine ⟨sp0, sp1, sp2, hnew, h1, h2, ?_⟩
  rw [hobs "http://foo.com"]
  simp [ScrapePool.observed, ScrapePool.storeAdd, Storage.Add, hstore, hexp, NewMetrics, mapGet,
    countFor, entriesFor]

/-- Counterexample for C12: in the pool that `NewScrapePool` returns, an outcome that
is added, drained and collected twice has been observed twice; an outcome that is
added and drained, with a second drain tick before the first `Collect`, has not been
observed at all. -/
theorem handOff_duplicates_and_loses :
    (NewScrapePool (constClient (Except.ok { Status := "200 OK", StatusCode := 200 }))
        { ScrapeInterval := 3 * second, ScrapeTimeout := 2 * second, StoreSize := 10,
          JitterSeed := 0 }).bind
      (fun r => (r.1.handOffs
          [HandOff.add { URL := "http://foo.com", Status := HealthGood,
                         ResponseTime := 2 * second },
           HandOff.drain, HandOff.collect, HandOff.collect]).map
        (fun sp => sp.observed "http://foo.com"))
      = some { sampleSum := 4000, sampleCount := 2 } ∧
    (NewScrapePool (constClient (Except.ok { Status := "200 OK", StatusCode := 200 }))
        { ScrapeInterval := 3 * second, ScrapeTimeout := 2 * second, StoreSize := 10,
          JitterSeed := 0 }).bind
      (fun r => (r.1.handOffs
          [HandOff.add { URL := "http://foo.com", Status := HealthGood,
                         ResponseTime := 2 * second },
           HandOff.drain, HandOff.drain, HandOff.collect]).map
        (fun sp => (sp.observed "http://foo.com", sp.store.rws, sp.exporter.entries)))
      = some ({ sampleSum := 0, sampleCount := 0 }, [], []) := by
  constructor <;> decide

end Scraper
